import Mathlib

set_option linter.unusedSectionVars false

/-!
# Click animation effects (`assets/js/anime-effects.js`)

A shallow embedding of the two click handlers of the script:

* `PetalEffect.createPetalCircle`, the radial burst of petals around a click, with the
  next-paint callback and the removal timer it registers for every petal;
* the ripple click handler bound to every `button, a, .btn` element.

Number model.  The script's numbers are IEEE-754 binary64 values.  The definitions are
written once, over any type `α` that carries the operations they use, and are read at two
kinds of `α`: at `F64`, where every operation is the exact one followed by rounding to
binary64 (`round64`), for the properties that depend on rounding; and at a linearly ordered
field with exact operations (`ℚ`, or `ℝ` with the real cosine, sine and π) for the
properties stated in exact arithmetic and for those that do not depend on the numbers.  A
CSS length such as `x + 'px'` is stored as the number, the unit being fixed by the field
that holds it.

State model.  The browser is an explicit state: the elements created so far (an element's
identity is its position in that list), the queue of `requestAnimationFrame` callbacks, the
pending `setTimeout` timers and the number of `Math.random()` calls made so far.  The
random source is a stream `random : ℕ → α`; the `n`-th call returns `random n`.
-/

namespace AnimeEffects

/-! ## Binary64 arithmetic

The script's numbers are IEEE-754 binary64 values.  A finite double is modelled by the
rational it denotes, and an arithmetic operation is the exact rational operation followed by
`round64`, rounding to nearest with ties to even at 53 bits of precision, with the gradual
underflow of binary64.  The exponent range is not bounded above (no overflow to
`Infinity`), and `NaN`, the infinities and the sign of zero are not represented; division
by zero does not occur in the script. -/

/-- Round a rational to the nearest integer, a tie going to the even neighbour. -/
def roundHalfEven (t : ℚ) : ℤ :=
  if t - ⌊t⌋ < 1 / 2 then ⌊t⌋
  else if 1 / 2 < t - ⌊t⌋ then ⌊t⌋ + 1
  else if ⌊t⌋ % 2 = 0 then ⌊t⌋ else ⌊t⌋ + 1

/-- Exponent of the binade of `q`: `⌊log₂ |q|⌋`, and `-1022` for the subnormal range. -/
def exponent64 (q : ℚ) : ℤ :=
  max (Int.log 2 |q|) (-1022)

/-- Spacing of the doubles in the binade of `q`. -/
def ulp64 (q : ℚ) : ℚ :=
  2 ^ (exponent64 q - 52)

/-- The double nearest to `q`, ties to even. -/
def round64 (q : ℚ) : ℚ :=
  roundHalfEven (q / ulp64 q) * ulp64 q

/-- The rational `q` is a double: rounding leaves it unchanged. -/
def IsDouble (q : ℚ) : Prop :=
  round64 q = q

/-- A JavaScript number, by the rational it denotes. -/
structure F64 where
  val : ℚ
  deriving DecidableEq, Repr

instance : Add F64 := ⟨fun a b => ⟨round64 (a.val + b.val)⟩⟩

instance : Sub F64 := ⟨fun a b => ⟨round64 (a.val - b.val)⟩⟩

instance : Mul F64 := ⟨fun a b => ⟨round64 (a.val * b.val)⟩⟩

instance : Div F64 := ⟨fun a b => ⟨round64 (a.val / b.val)⟩⟩

instance : Zero F64 := ⟨⟨0⟩⟩

instance : One F64 := ⟨⟨1⟩⟩

instance : NatCast F64 := ⟨fun n => ⟨round64 n⟩⟩

instance : OfScientific F64 :=
  ⟨fun mantissa exponentSign decimalExponent =>
    ⟨round64 (OfScientific.ofScientific mantissa exponentSign decimalExponent)⟩⟩

instance : Max F64 := ⟨fun a b => if a.val ≤ b.val then b else a⟩

/-- `Math.floor`, with an integer result. -/
class JSFloor (α : Type) where
  floor : α → Int

instance {α : Type} [LinearOrderedRing α] [FloorRing α] : JSFloor α := ⟨Int.floor⟩

instance : JSFloor F64 := ⟨fun a => ⌊a.val⌋⟩

/-! ## Data model of the petal burst -/

/-- What an element can be attached to: `document.body` or another element. -/
inductive NodeRef where
  | body : NodeRef
  | elem (i : Nat) : NodeRef
  deriving DecidableEq, Repr

/-- Inline style of an element: only the properties the script writes.  `none` is "not
set"; assigning `undefined` to a style property leaves it unset as well. -/
structure Style (α : Type) where
  left : Option α := none
  top : Option α := none
  color : Option String := none
  fontSize : Option α := none
  opacity : Option String := none
  tx : Option α := none
  ty : Option α := none
  r : Option α := none
  animation : Option α := none
  deriving DecidableEq, Repr

/-- A DOM element.  `innerHTML = none` records that the value assigned was `undefined`.
`style.left`, `top`, `fontSize`, `tx`, `ty` are in px, `r` in deg and `animation` is the
duration in seconds of `petal-fall … ease-out forwards`. -/
structure Element (α : Type) where
  tagName : String
  className : String := ""
  innerHTML : Option String := some ""
  style : Style α := {}
  parentNode : Option NodeRef := none
  deriving DecidableEq, Repr

/-- The closure passed to `requestAnimationFrame` (lines 49-59): it captures the petal and
the constants `x`, `y`, `petalX`, `petalY` of its loop iteration. -/
structure RafCallback (α : Type) where
  petal : Nat
  x : α
  y : α
  petalX : α
  petalY : α
  deriving DecidableEq, Repr

/-- The closure passed to `setTimeout` (lines 62-66) with its delay in milliseconds. -/
structure Timer where
  delay : Nat
  petal : Nat
  deriving DecidableEq, Repr

/-- The page: every element created so far, the `requestAnimationFrame` queue, the pending
timers and the number of `Math.random()` calls already made. -/
structure Page (α : Type) where
  elems : List (Element α) := []
  rafQueue : List (RafCallback α) := []
  timers : List Timer := []
  randomCalls : Nat := 0
  deriving DecidableEq, Repr

/-- The part of the global `Math` object the script uses. -/
structure JSMath (α : Type) where
  PI : α
  cos : α → α
  sin : α → α
  random : Nat → α

/-- Fields of a `PetalEffect` instance. -/
structure PetalEffect where
  petalCount : Nat
  petalChars : List String
  petalColors : List String
  deriving DecidableEq, Repr

/-- The constructor (lines 5-12). -/
def PetalEffect.new : PetalEffect :=
  { petalCount := 15
    petalChars := ["★", "☆", "✦", "✧", "⭐", "🌟", "✨", "💫", "⋆", "⚝", "🌠"]
    petalColors := ["#F0F0F0", "#E0E0E0", "#D0D0D0", "#C0C0C0",
                    "#B0B0B0", "#A0A0A0", "#909090", "#808080",
                    "#707070", "#606060"] }

/-- JavaScript array read `xs[k]` for an integral number `k`: `none` is `undefined`. -/
def jsIndex {β : Type} (xs : List β) (k : Int) : Option β :=
  if k < 0 then none else xs[k.toNat]?

/-- Hexadecimal digit. -/
def isHexDigit (c : Char) : Bool :=
  c.isDigit || (decide ('A' ≤ c) && decide (c ≤ 'F')) || (decide ('a' ≤ c) && decide (c ≤ 'f'))

/-- A grey in the form `#RRGGBB`: seven characters, `#` then six hexadecimal digits, with
the three components `RR`, `GG`, `BB` equal. -/
def isGrey (s : String) : Bool :=
  match s.data with
  | ['#', r₁, r₂, g₁, g₂, b₁, b₂] =>
    isHexDigit r₁ && isHexDigit r₂ && r₁ == g₁ && g₁ == b₁ && r₂ == g₂ && g₂ == b₂
  | _ => false

section Petal

variable {α : Type} [Add α] [Sub α] [Mul α] [Div α] [NatCast α] [OfScientific α]
  [JSFloor α] [DecidableEq α]

/-- The constant `radius` of line 25. -/
def radius : α := 100

/-- Line 29: `(i / this.petalCount) * Math.PI * 2`. -/
def angle (M : JSMath α) (self : PetalEffect) (i : Nat) : α :=
  ((i : α) / (self.petalCount : α)) * M.PI * 2

/-- Line 30: `x + radius * Math.cos(angle)`. -/
def petalX (M : JSMath α) (self : PetalEffect) (x : α) (i : Nat) : α :=
  x + radius * M.cos (angle M self i)

/-- Line 31: `y + radius * Math.sin(angle)`. -/
def petalY (M : JSMath α) (self : PetalEffect) (y : α) (i : Nat) : α :=
  y + radius * M.sin (angle M self i)

/-- Lines 36 and 41: `Math.floor(Math.random() * xs.length)` for the draw `r`. -/
def randomIndex (r : α) (len : Nat) : Int :=
  JSFloor.floor (r * (len : α))

/-- Line 42: `Math.random() * 15 + 25` for the draw `r`. -/
def fontSize (r : α) : α :=
  r * 15 + 25

/-- Line 53: `Math.random() * 720` for the draw `r`. -/
def rotation (r : α) : α :=
  r * 720

/-- Line 58: `Math.random() * 1.5 + 1.5` for the draw `r`, in seconds. -/
def animationDuration (r : α) : α :=
  r * 1.5 + 1.5

/-- Line 66: the delay handed to `setTimeout`, in milliseconds. -/
def removalDelay : Nat := 2000

/-- Lines 34-46: the petal of one iteration, created, styled and appended to
`document.body`.  `n` is the number of `Math.random()` calls made before the iteration. -/
def newPetal (M : JSMath α) (self : PetalEffect) (x y : α) (n : Nat) : Element α :=
  { tagName := "div"
    className := "petal"
    innerHTML := jsIndex self.petalChars (randomIndex (M.random n) self.petalChars.length)
    style :=
      { left := some x
        top := some y
        color := jsIndex self.petalColors
          (randomIndex (M.random (n + 1)) self.petalColors.length)
        fontSize := some (fontSize (M.random (n + 2)))
        opacity := some "1" }
    parentNode := some NodeRef.body }

/-- One iteration of the loop body (lines 28-66). -/
def petalIteration (M : JSMath α) (self : PetalEffect) (x y : α) (p : Page α) (i : Nat) :
    Page α :=
  { elems := p.elems ++ [newPetal M self x y p.randomCalls]
    rafQueue := p.rafQueue ++
      [{ petal := p.elems.length, x := x, y := y,
         petalX := petalX M self x i, petalY := petalY M self y i }]
    timers := p.timers ++ [{ delay := removalDelay, petal := p.elems.length }]
    randomCalls := p.randomCalls + 3 }

/-- The method `createPetalCircle(x, y)` (lines 24-68): the loop
`for (let i = 0; i < this.petalCount; i++)`. -/
def createPetalCircle (M : JSMath α) (self : PetalEffect) (x y : α) (p : Page α) : Page α :=
  (List.range self.petalCount).foldl (petalIteration M self x y) p

/-- Line 51: `(petalX - x) * 2`. -/
def RafCallback.tx (cb : RafCallback α) : α :=
  (cb.petalX - cb.x) * 2

/-- Line 52: `(petalY - y) * 2`. -/
def RafCallback.ty (cb : RafCallback α) : α :=
  (cb.petalY - cb.y) * 2

/-- Replace the element at position `i`. -/
def Page.setElem (p : Page α) (i : Nat) (e : Element α) : Page α :=
  { p with elems := p.elems.set i e }

/-- The body of the `requestAnimationFrame` callback (lines 50-58), run on page `p`. -/
def runRafCallback (M : JSMath α) (cb : RafCallback α) (p : Page α) : Page α :=
  match p.elems[cb.petal]? with
  | none => p
  | some e =>
    let tx := cb.tx
    let ty := cb.ty
    let rot := rotation (M.random p.randomCalls)
    let dur := animationDuration (M.random (p.randomCalls + 1))
    { p.setElem cb.petal
        { e with style := { e.style with
            tx := some tx, ty := some ty, r := some rot, animation := some dur } }
      with randomCalls := p.randomCalls + 2 }

/-- One paint: the browser runs every queued `requestAnimationFrame` callback, in order. -/
def animationFrame (M : JSMath α) (p : Page α) : Page α :=
  p.rafQueue.foldl (fun q cb => runRafCallback M cb q) { p with rafQueue := [] }

/-- DOM `parent.removeChild(child)`: throws when `child` is not a child of `parent`. -/
def removeChild (parent : NodeRef) (child : Nat) (p : Page α) : Except String (Page α) :=
  match p.elems[child]? with
  | none => Except.error "NotFoundError"
  | some e =>
    if e.parentNode = some parent then
      Except.ok (p.setElem child { e with parentNode := none })
    else Except.error "NotFoundError"

/-- The body of the `setTimeout` callback (lines 63-65):
`if (petal.parentNode) petal.parentNode.removeChild(petal)`. -/
def removalCallback (petal : Nat) (p : Page α) : Except String (Page α) :=
  match p.elems[petal]? with
  | none => Except.ok p
  | some e =>
    match e.parentNode with
    | none => Except.ok p
    | some parent => removeChild parent petal p

/-- The `k`-th pending timer fires: it leaves the pending list and its callback runs. -/
def fireTimer (k : Nat) (p : Page α) : Except String (Page α) :=
  match p.timers[k]? with
  | none => Except.ok p
  | some t => removalCallback t.petal { p with timers := p.timers.eraseIdx k }

/-- The petals of the page that are attached to `document.body`. -/
def liveMarkers (p : Page α) : List (Element α) :=
  p.elems.filter (fun e => e.className = "petal" ∧ e.parentNode = some NodeRef.body)

/-- The element was created at the point `(x, y)`: its `left` and `top` are `x` and `y`. -/
def hasOrigin (x y : α) (e : Element α) : Bool :=
  decide (e.style.left = some x ∧ e.style.top = some y)

/-! ## Closed form of one burst -/

/-- The petals one burst appends, in creation order. -/
def burstPetals (M : JSMath α) (self : PetalEffect) (x y : α) (p : Page α) (n : Nat) :
    List (Element α) :=
  (List.range n).map (fun i => newPetal M self x y (p.randomCalls + 3 * i))

/-- The next-paint callbacks one burst registers, in registration order. -/
def burstCallbacks (M : JSMath α) (self : PetalEffect) (x y : α) (p : Page α) (n : Nat) :
    List (RafCallback α) :=
  (List.range n).map (fun i =>
    { petal := p.elems.length + i, x := x, y := y,
      petalX := petalX M self x i, petalY := petalY M self y i })

/-- The removal timers one burst registers, in registration order. -/
def burstTimers (p : Page α) (n : Nat) : List Timer :=
  (List.range n).map (fun i => { delay := removalDelay, petal := p.elems.length + i })

end Petal

/-! ## The ripple click handler (lines 76-110)

The elements of the document form an ordered forest, kept in first-child / next-sibling
form, so that document order is the order node, children, following siblings.  An element
carries an identity `id`; identities are pairwise distinct and a created element gets the
identity `nextId`.  The handler is bound at `DOMContentLoaded` to every element matching
`button, a, .btn`; a click on a target runs the handler of the target and then, as the event
bubbles, the handlers of its ancestors, innermost first. -/

/-- `getBoundingClientRect()` of the clicked element: the four fields the handler reads. -/
structure Rect (α : Type) where
  left : α
  top : α
  width : α
  height : α
  deriving DecidableEq, Repr

/-- The click event: the two fields the handler reads. -/
structure MouseEvent (α : Type) where
  clientX : α
  clientY : α
  deriving DecidableEq, Repr

/-- An element below the clicked element, with the inline style the handler writes. -/
structure RNode (α : Type) where
  id : Nat
  tagName : String
  classList : List String := []
  width : Option α := none
  height : Option α := none
  left : Option α := none
  top : Option α := none
  deriving DecidableEq, Repr

/-- Ordered forest of elements: `node e children next` is the element `e`, its child
forest, and the siblings that follow it. -/
inductive DomForest (α : Type) where
  | nil : DomForest α
  | node (e : RNode α) (children : DomForest α) (next : DomForest α) : DomForest α
  deriving DecidableEq, Repr

/-- The selector `.cls` matches the element. -/
def RNode.hasClass {α : Type} (cls : String) (e : RNode α) : Bool :=
  decide (cls ∈ e.classList)

/-- `this.querySelector('.cls')`: the first matching descendant in document order. -/
def DomForest.querySelector {α : Type} (cls : String) : DomForest α → Option (RNode α)
  | DomForest.nil => none
  | DomForest.node e children next =>
    if e.hasClass cls then some e
    else match DomForest.querySelector cls children with
      | some r => some r
      | none => DomForest.querySelector cls next

/-- `el.remove()` for the element with identity `id`: it is detached together with its
subtree, and nothing changes when no element of the forest has that identity.  Identities
are unique in a DOM; on a forest that repeats one, every element carrying it is detached. -/
def DomForest.remove {α : Type} (id : Nat) : DomForest α → DomForest α
  | DomForest.nil => DomForest.nil
  | DomForest.node e children next =>
    if e.id = id then DomForest.remove id next
    else DomForest.node e (DomForest.remove id children) (DomForest.remove id next)

/-- `this.appendChild(e)` for a childless element `e`: it becomes the last child. -/
def DomForest.appendChild {α : Type} (e : RNode α) : DomForest α → DomForest α
  | DomForest.nil => DomForest.node e DomForest.nil DomForest.nil
  | DomForest.node a children next => DomForest.node a children (DomForest.appendChild e next)

/-- Number of descendants matched by `.cls`. -/
def DomForest.count {α : Type} (cls : String) : DomForest α → Nat
  | DomForest.nil => 0
  | DomForest.node e children next =>
    (if e.hasClass cls then 1 else 0) + DomForest.count cls children +
      DomForest.count cls next

/-- Identities of the descendants, in document order. -/
def DomForest.ids {α : Type} : DomForest α → List Nat
  | DomForest.nil => []
  | DomForest.node e children next => e.id :: (DomForest.ids children ++ DomForest.ids next)

/-- The last child of the element, if it has children. -/
def DomForest.lastChild {α : Type} : DomForest α → Option (RNode α)
  | DomForest.nil => none
  | DomForest.node e _ DomForest.nil => some e
  | DomForest.node _ _ (DomForest.node e children next) =>
    DomForest.lastChild (DomForest.node e children next)

/-- The child forest of the element with identity `id`, if it is in the forest. -/
def DomForest.childrenOf {α : Type} (id : Nat) : DomForest α → Option (DomForest α)
  | DomForest.nil => none
  | DomForest.node e children next =>
    if e.id = id then some children
    else match DomForest.childrenOf id children with
      | some below => some below
      | none => DomForest.childrenOf id next

/-- `parent.appendChild(x)` for the element with identity `parent` and a childless `x`;
nothing changes when the forest has no such element. -/
def DomForest.appendChildTo {α : Type} (parent : Nat) (x : RNode α) :
    DomForest α → DomForest α
  | DomForest.nil => DomForest.nil
  | DomForest.node e children next =>
    if e.id = parent then DomForest.node e (DomForest.appendChild x children) next
    else DomForest.node e (DomForest.appendChildTo parent x children)
      (DomForest.appendChildTo parent x next)

/-- The propagation path of an event dispatched at `target`: the target, then its
ancestors from the innermost to the outermost; empty when the target is not in the forest. -/
def DomForest.eventPath {α : Type} (target : Nat) : DomForest α → List Nat
  | DomForest.nil => []
  | DomForest.node e children next =>
    if e.id = target then [e.id]
    else match DomForest.eventPath target children with
      | [] => DomForest.eventPath target next
      | i :: path => (i :: path) ++ [e.id]

/-- The closure passed to `setTimeout` at lines 107-109, with its delay in milliseconds. -/
structure RippleTimer where
  delay : Nat
  ripple : Nat
  deriving DecidableEq, Repr

/-- The document: the forest of its elements, the identities of the elements the click
handler was bound to (`clickableElements`, line 76), the identity the next created element
gets, and the pending ripple timers. -/
structure Document (α : Type) where
  body : DomForest α := DomForest.nil
  clickable : List Nat := []
  nextId : Nat := 0
  timers : List RippleTimer := []
  deriving DecidableEq, Repr

/-- Identities are pairwise distinct, and the identities in use lie below `nextId`. -/
def Document.WellFormed {α : Type} (d : Document α) : Prop :=
  d.body.ids.Nodup ∧ (∀ i ∈ d.body.ids, i < d.nextId) ∧ (∀ i ∈ d.clickable, i < d.nextId)

/-- Number of `.ripple` descendants of the element `this`; 0 when it is not in the
document. -/
def rippleCount {α : Type} (this : Nat) (d : Document α) : Nat :=
  match d.body.childrenOf this with
  | some below => below.count "ripple"
  | none => 0

/-- No descendant of `this` has the click handler. -/
def noClickableBelow {α : Type} (this : Nat) (d : Document α) : Prop :=
  ∀ below, d.body.childrenOf this = some below → ∀ i ∈ below.ids, i ∉ d.clickable

/-- What the ripple claims assume of the element `this` in the document `d`: the document
is well formed, the identity of `this` is in use, no descendant of `this` has the click
handler, and `this` holds at most one ripple. -/
def RippleInvariant {α : Type} (this : Nat) (d : Document α) : Prop :=
  d.WellFormed ∧ this < d.nextId ∧ noClickableBelow this d ∧ rippleCount this d ≤ 1

/-- The elements whose handler a click on `target` runs, in the order they run. -/
def handlerChain {α : Type} (target : Nat) (d : Document α) : List Nat :=
  (d.body.eventPath target).filter (fun i => decide (i ∈ d.clickable))

section Ripple

variable {α : Type} [Sub α] [Div α] [NatCast α] [Max α]

/-- Line 96: `Math.max(rect.width, rect.height)`. -/
def rippleSize (rect : Rect α) : α :=
  max rect.width rect.height

/-- Lines 91-102: the new ripple element, created, classed and styled. -/
def newRipple (rect : Rect α) (e : MouseEvent α) (id : Nat) : RNode α :=
  { id := id
    tagName := "span"
    classList := ["ripple"]
    width := some (rippleSize rect)
    height := some (rippleSize rect)
    left := some (e.clientX - rect.left - rippleSize rect / 2)
    top := some (e.clientY - rect.top - rippleSize rect / 2) }

/-- Lines 85-88: `this.querySelector('.ripple')` and the removal of what it finds. -/
def removeExistingRipple (below : DomForest α) (body : DomForest α) : DomForest α :=
  match below.querySelector "ripple" with
  | some existingRipple => body.remove existingRipple.id
  | none => body

/-- The click handler (lines 83-110) run on the element `this`; `rect` is what
`getBoundingClientRect()` returns for it.  An element that is not in the document is not
tracked, and its handler leaves the document unchanged. -/
def rippleHandler (rect : Rect α) (e : MouseEvent α) (this : Nat) (d : Document α) :
    Document α :=
  match d.body.childrenOf this with
  | none => d
  | some below =>
    { d with
      body := (removeExistingRipple below d.body).appendChildTo this
        (newRipple rect e d.nextId)
      nextId := d.nextId + 1
      timers := d.timers ++ [{ delay := 600, ripple := d.nextId }] }

/-- A click on `target`: the handler of every clickable element on the propagation path
runs, the target's first.  `rects i` is the bounding rectangle of element `i`. -/
def dispatchClick (rects : Nat → Rect α) (e : MouseEvent α) (target : Nat)
    (d : Document α) : Document α :=
  (handlerChain target d).foldl (fun d this => rippleHandler (rects this) e this d) d

/-- The `k`-th pending timer fires: it leaves the pending list and `ripple.remove()` runs. -/
def rippleTimeout (k : Nat) (d : Document α) : Document α :=
  match d.timers[k]? with
  | none => d
  | some t => { d with body := d.body.remove t.ripple, timers := d.timers.eraseIdx k }

/-- What can happen to the document: a click on some element, or a pending timer firing. -/
inductive RippleEvent (α : Type) where
  | click (rects : Nat → Rect α) (e : MouseEvent α) (target : Nat) : RippleEvent α
  | timeout (k : Nat) : RippleEvent α

/-- One event. -/
def rippleStep (d : Document α) : RippleEvent α → Document α
  | RippleEvent.click rects e target => dispatchClick rects e target d
  | RippleEvent.timeout k => rippleTimeout k d

/-- A sequence of events, in any interleaving of clicks and timer firings. -/
def rippleRun (d : Document α) (evs : List (RippleEvent α)) : Document α :=
  evs.foldl rippleStep d

end Ripple

/-- The document `<a><span class="btn"></span></a>`: the `a` has identity 0 and the `span`
identity 1, and both matched `button, a, .btn` when the handlers were bound. -/
def nestedButtons : Document F64 :=
  { body := DomForest.node { id := 0, tagName := "a" }
      (DomForest.node { id := 1, tagName := "span", classList := ["btn"] }
        DomForest.nil DomForest.nil)
      DomForest.nil
    clickable := [0, 1]
    nextId := 2 }


/-! # Properties -/

/-! ## Structure of one burst -/

section PetalStructure

variable {α : Type} [Add α] [Sub α] [Mul α] [Div α] [NatCast α] [OfScientific α]
  [JSFloor α] [DecidableEq α]

theorem foldl_petalIteration (M : JSMath α) (self : PetalEffect) (x y : α) (p : Page α)
    (n : Nat) :
    (List.range n).foldl (petalIteration M self x y) p =
      { elems := p.elems ++ burstPetals M self x y p n
        rafQueue := p.rafQueue ++ burstCallbacks M self x y p n
        timers := p.timers ++ burstTimers p n
        randomCalls := p.randomCalls + 3 * n } := by
  induction n with
  | zero => simp [burstPetals, burstCallbacks, burstTimers]
  | succ n ih =>
    rw [List.range_succ, List.foldl_append, ih]
    simp [petalIteration, burstPetals, burstCallbacks, burstTimers, List.range_succ]
    omega

theorem createPetalCircle_eq (M : JSMath α) (self : PetalEffect) (x y : α) (p : Page α) :
    createPetalCircle M self x y p =
      { elems := p.elems ++ burstPetals M self x y p self.petalCount
        rafQueue := p.rafQueue ++ burstCallbacks M self x y p self.petalCount
        timers := p.timers ++ burstTimers p self.petalCount
        randomCalls := p.randomCalls + 3 * self.petalCount } :=
  foldl_petalIteration M self x y p self.petalCount

theorem burstPetals_length (M : JSMath α) (self : PetalEffect) (x y : α) (p : Page α)
    (n : Nat) : (burstPetals M self x y p n).length = n := by
  simp [burstPetals]

theorem burstCallbacks_length (M : JSMath α) (self : PetalEffect) (x y : α) (p : Page α)
    (n : Nat) : (burstCallbacks M self x y p n).length = n := by
  simp [burstCallbacks]

theorem burstTimers_length (p : Page α) (n : Nat) : (burstTimers p n).length = n := by
  simp [burstTimers]

theorem mem_burstPetals {M : JSMath α} {self : PetalEffect} {x y : α} {p : Page α}
    {n : Nat} {e : Element α} (h : e ∈ burstPetals M self x y p n) :
    ∃ i, i < n ∧ e = newPetal M self x y (p.randomCalls + 3 * i) := by
  simp only [burstPetals, List.mem_map, List.mem_range] at h
  obtain ⟨i, hi, rfl⟩ := h
  exact ⟨i, hi, rfl⟩

theorem filter_burstPetals (M : JSMath α) (self : PetalEffect) (x y : α) (p : Page α)
    (n : Nat) :
    (burstPetals M self x y p n).filter
      (fun e => e.className = "petal" ∧ e.parentNode = some NodeRef.body) =
      burstPetals M self x y p n := by
  rw [List.filter_eq_self]
  intro e he
  obtain ⟨i, -, rfl⟩ := mem_burstPetals he
  simp [newPetal]

theorem createPetalCircle_length (M : JSMath α) (x y : α) (p : Page α) :
    (createPetalCircle M PetalEffect.new x y p).elems.length = p.elems.length + 15 := by
  rw [createPetalCircle_eq]
  have hc : PetalEffect.new.petalCount = 15 := rfl
  simp [hc, burstPetals_length]

theorem removalCallback_attached (k : Nat) (s : Page α) (e : Element α) (parent : NodeRef)
    (he : s.elems[k]? = some e) (hp : e.parentNode = some parent) :
    removalCallback k s = Except.ok (s.setElem k { e with parentNode := none }) := by
  simp [removalCallback, removeChild, he, hp]

theorem removalCallback_detached (k : Nat) (s : Page α) (e : Element α)
    (he : s.elems[k]? = some e) (hp : e.parentNode = none) :
    removalCallback k s = Except.ok s := by
  simp [removalCallback, he, hp]

theorem removalCallback_ok (k : Nat) (s : Page α) :
    ∃ s', removalCallback k s = Except.ok s' := by
  cases he : s.elems[k]? with
  | none => exact ⟨s, by simp [removalCallback, he]⟩
  | some e =>
    cases hp : e.parentNode with
    | none => exact ⟨s, removalCallback_detached k s e he hp⟩
    | some parent => exact ⟨_, removalCallback_attached k s e parent he hp⟩

theorem timers_get_burst (M : JSMath α) (x y : α) (p : Page α) (i : Nat) (hi : i < 15) :
    (createPetalCircle M PetalEffect.new x y p).timers[p.timers.length + i]? =
      some { delay := 2000, petal := p.elems.length + i } := by
  rw [createPetalCircle_eq]
  have hc : PetalEffect.new.petalCount = 15 := rfl
  simp only [hc]
  rw [List.getElem?_append_right (Nat.le_add_right _ _)]
  simp [burstTimers, hi, removalDelay]

theorem take_two_left {β : Type} (a b c : List β) (n : Nat) (hb : b.length = n) :
    (a ++ b ++ c).take (a.length + n) = a ++ b := by
  subst hb
  rw [← List.length_append]
  exact List.take_left _ _

theorem drop_two_left {β : Type} (a b c : List β) (n : Nat) (hb : b.length = n) :
    (a ++ b ++ c).drop (a.length + n) = c := by
  subst hb
  rw [← List.length_append]
  exact List.drop_left _ _

theorem drop_take_middle {β : Type} (a b c : List β) (n : Nat) (hb : b.length = n) :
    ((a ++ b ++ c).drop a.length).take n = b := by
  subst hb
  rw [List.append_assoc, List.drop_left]
  exact List.take_left _ _

theorem burstPetals_origin {M : JSMath α} {self : PetalEffect} {x y : α} {p : Page α}
    {n : Nat} {e : Element α} (h : e ∈ burstPetals M self x y p n) :
    e.style.left = some x ∧ e.style.top = some y := by
  obtain ⟨i, -, rfl⟩ := mem_burstPetals h
  simp [newPetal]

theorem filter_hasOrigin_same (M : JSMath α) (self : PetalEffect) (x y : α) (p : Page α)
    (n : Nat) :
    (burstPetals M self x y p n).filter (hasOrigin x y) = burstPetals M self x y p n := by
  rw [List.filter_eq_self]
  intro e he
  simpa [hasOrigin] using burstPetals_origin he

theorem filter_hasOrigin_other (M : JSMath α) (self : PetalEffect) (x y x' y' : α)
    (p : Page α) (n : Nat) (h : (x, y) ≠ (x', y')) :
    (burstPetals M self x y p n).filter (hasOrigin x' y') = [] := by
  rw [List.filter_eq_nil_iff]
  intro e he
  obtain ⟨hl, ht⟩ := burstPetals_origin he
  simp only [hasOrigin, hl, ht, Option.some.injEq, decide_eq_true_eq, not_and]
  intro hx hy
  exact h (by rw [hx, hy])

theorem burstCallbacks_tx_ty (M : JSMath α) (self : PetalEffect) (x y : α) (p p' : Page α)
    (n : Nat) :
    (burstCallbacks M self x y p n).map (fun cb => (cb.tx, cb.ty)) =
      (burstCallbacks M self x y p' n).map (fun cb => (cb.tx, cb.ty)) := by
  simp [burstCallbacks, RafCallback.tx, RafCallback.ty, Function.comp_def]

theorem runRafCallback_elem (M : JSMath α) (cb : RafCallback α) (s : Page α)
    (e : Element α) (he : s.elems[cb.petal]? = some e) :
    (runRafCallback M cb s).elems[cb.petal]? =
      some { e with style := { e.style with
        tx := some cb.tx, ty := some cb.ty,
        r := some (rotation (M.random s.randomCalls)),
        animation := some (animationDuration (M.random (s.randomCalls + 1))) } } := by
  have hlt : cb.petal < s.elems.length := by
    rcases List.getElem?_eq_some.1 he with ⟨h, -⟩
    exact h
  simp [runRafCallback, he, Page.setElem, hlt]

theorem jsIndex_in_bounds {β : Type} (xs : List β) (k : Int) (h0 : 0 ≤ k)
    (h1 : k < xs.length) : ∃ v, jsIndex xs k = some v ∧ v ∈ xs := by
  have hlt : k.toNat < xs.length := by omega
  refine ⟨xs[k.toNat], ?_, List.getElem_mem _⟩
  simp [jsIndex, not_lt.2 h0, List.getElem?_eq_getElem hlt]

theorem petalColors_grey : ∀ c ∈ PetalEffect.new.petalColors, isGrey c = true := by
  decide

theorem rafQueue_get_burst (M : JSMath α) (x y : α) (p : Page α) (i : Nat) (hi : i < 15) :
    (createPetalCircle M PetalEffect.new x y p).rafQueue[p.rafQueue.length + i]? =
      some { petal := p.elems.length + i, x := x, y := y,
             petalX := petalX M PetalEffect.new x i,
             petalY := petalY M PetalEffect.new y i } := by
  rw [createPetalCircle_eq]
  have hc : PetalEffect.new.petalCount = 15 := rfl
  simp only [hc]
  rw [List.getElem?_append_right (Nat.le_add_right _ _)]
  simp [burstCallbacks, hi]

theorem burst_origin (M : JSMath α) (x y : α) (p : Page α) :
    ∀ e ∈ (createPetalCircle M PetalEffect.new x y p).elems.drop p.elems.length,
      e.style.left = some x ∧ e.style.top = some y := by
  intro e he
  rw [createPetalCircle_eq] at he
  simp only [List.drop_left] at he
  exact burstPetals_origin he

end PetalStructure

/-! ## Claims over a field with exact operations -/

section PetalProofs

variable {α : Type} [LinearOrderedField α] [FloorRing α]

/-- C1: for every activation point and every random stream, one call of
`createPetalCircle` appends exactly 15 new elements to the page, all of them petals attached
to `document.body`, leaves the older elements, callbacks and timers as they were, and
registers exactly 15 next-paint callbacks and exactly 15 removal timers, the `i`-th of each
belonging to the `i`-th new petal. -/
theorem createPetalCircle_fifteen_markers (M : JSMath α) (x y : α) (p : Page α) :
    (createPetalCircle M PetalEffect.new x y p).elems.length = p.elems.length + 15 ∧
    (createPetalCircle M PetalEffect.new x y p).elems.take p.elems.length = p.elems ∧
    (∀ e ∈ (createPetalCircle M PetalEffect.new x y p).elems.drop p.elems.length,
      e.tagName = "div" ∧ e.className = "petal" ∧ e.parentNode = some NodeRef.body) ∧
    (liveMarkers (createPetalCircle M PetalEffect.new x y p)).length =
      (liveMarkers p).length + 15 ∧
    (createPetalCircle M PetalEffect.new x y p).rafQueue.length = p.rafQueue.length + 15 ∧
    (createPetalCircle M PetalEffect.new x y p).rafQueue.take p.rafQueue.length =
      p.rafQueue ∧
    ((createPetalCircle M PetalEffect.new x y p).rafQueue.drop p.rafQueue.length).map
      (fun cb => cb.petal) = (List.range 15).map (fun i => p.elems.length + i) ∧
    (createPetalCircle M PetalEffect.new x y p).timers.length = p.timers.length + 15 ∧
    (createPetalCircle M PetalEffect.new x y p).timers.take p.timers.length = p.timers ∧
    ((createPetalCircle M PetalEffect.new x y p).timers.drop p.timers.length).map
      (fun t => t.petal) = (List.range 15).map (fun i => p.elems.length + i) := by
  rw [createPetalCircle_eq]
  have hc : PetalEffect.new.petalCount = 15 := rfl
  rw [hc]
  refine ⟨?_, ?_, ?_, ?_, ?_, ?_, ?_, ?_, ?_, ?_⟩
  · simp [burstPetals_length]
  · simp
  · intro e he
    simp only [List.drop_left] at he
    obtain ⟨i, -, rfl⟩ := mem_burstPetals he
    simp [newPetal]
  · simp only [liveMarkers, List.filter_append, List.length_append, filter_burstPetals,
      burstPetals_length]
  · simp [burstCallbacks_length]
  · simp
  · simp [burstCallbacks, Function.comp_def]
  · simp [burstTimers_length]
  · simp
  · simp [burstTimers, Function.comp_def]

/-- C6: the removal timer of the `i`-th petal of a burst is registered with the fixed delay
2000 ms, whatever the activation point, the index and the random stream.  When the callback
runs on a page where the petal has a parent, the result is that page with exactly this
petal detached: every other element, the callback queue, the timers and the random counter
are unchanged.  When the petal is already detached the callback returns the page
unchanged.  In no state does the callback, or a timer firing, raise an error. -/
theorem removal_fixed_delay_guarded (M : JSMath α) (x y : α) (p : Page α) (i : Nat)
    (hi : i < 15) :
    (createPetalCircle M PetalEffect.new x y p).timers[p.timers.length + i]? =
      some { delay := 2000, petal := p.elems.length + i } ∧
    (∀ (s : Page α) (e : Element α) (parent : NodeRef),
      s.elems[p.elems.length + i]? = some e → e.parentNode = some parent →
      ∃ s', removalCallback (p.elems.length + i) s = Except.ok s' ∧
        s'.elems[p.elems.length + i]? = some { e with parentNode := none } ∧
        (∀ j, j ≠ p.elems.length + i → s'.elems[j]? = s.elems[j]?) ∧
        s'.elems.length = s.elems.length ∧
        s'.rafQueue = s.rafQueue ∧ s'.timers = s.timers ∧
        s'.randomCalls = s.randomCalls) ∧
    (∀ (s : Page α) (e : Element α),
      s.elems[p.elems.length + i]? = some e → e.parentNode = none →
      removalCallback (p.elems.length + i) s = Except.ok s) ∧
    (∀ (s : Page α) (k : Nat), ∃ s', removalCallback k s = Except.ok s') ∧
    (∀ (s : Page α) (k : Nat), ∃ s', fireTimer k s = Except.ok s') := by
  refine ⟨timers_get_burst M x y p i hi, ?_, ?_, fun s k => removalCallback_ok k s, ?_⟩
  · intro s e parent he hp
    refine ⟨_, removalCallback_attached _ s e parent he hp, ?_, ?_, ?_, rfl, rfl, rfl⟩
    · have hlt : p.elems.length + i < s.elems.length := by
        rcases List.getElem?_eq_some.1 he with ⟨h, -⟩
        exact h
      simp [Page.setElem, hlt]
    · intro j hj
      simp [Page.setElem, List.getElem?_set, Ne.symm hj]
    · simp [Page.setElem]
  · intro s e he hp
    exact removalCallback_detached _ s e he hp
  · intro s k
    cases ht : s.timers[k]? with
    | none => exact ⟨s, by simp [fireTimer, ht]⟩
    | some t =>
      obtain ⟨s', hs'⟩ := removalCallback_ok t.petal { s with timers := s.timers.eraseIdx k }
      exact ⟨s', by simp [fireTimer, ht, hs']⟩

/-- C7: two activations at different points `(x₁, y₁)` and `(x₂, y₂)`, run one after the
other with no timer fired in between, append 30 elements: first 15 petals with origin
`(x₁, y₁)`, then 15 petals with origin `(x₂, y₂)`, all attached to `document.body`.  On a
page that had no live petal, the live petals are then exactly 30, 15 at each origin.  The
second activation leaves every element and every queued callback and timer of the page
after the first activation unchanged, and the displacements `(tx, ty)` of the callbacks
of each burst are those of the same activation run alone. -/
theorem two_bursts_do_not_interact (M : JSMath α) (x₁ y₁ x₂ y₂ : α) (p : Page α)
    (h : (x₁, y₁) ≠ (x₂, y₂)) :
    (createPetalCircle M PetalEffect.new x₂ y₂
      (createPetalCircle M PetalEffect.new x₁ y₁ p)).elems.length = p.elems.length + 30 ∧
    (liveMarkers (createPetalCircle M PetalEffect.new x₂ y₂
      (createPetalCircle M PetalEffect.new x₁ y₁ p))).length = (liveMarkers p).length + 30 ∧
    (liveMarkers p = [] →
      (liveMarkers (createPetalCircle M PetalEffect.new x₂ y₂
        (createPetalCircle M PetalEffect.new x₁ y₁ p))).length = 30 ∧
      ((liveMarkers (createPetalCircle M PetalEffect.new x₂ y₂
        (createPetalCircle M PetalEffect.new x₁ y₁ p))).filter (hasOrigin x₁ y₁)).length
          = 15 ∧
      ((liveMarkers (createPetalCircle M PetalEffect.new x₂ y₂
        (createPetalCircle M PetalEffect.new x₁ y₁ p))).filter (hasOrigin x₂ y₂)).length
          = 15) ∧
    (∀ e ∈ ((createPetalCircle M PetalEffect.new x₂ y₂
        (createPetalCircle M PetalEffect.new x₁ y₁ p)).elems.drop p.elems.length).take 15,
      e.style.left = some x₁ ∧ e.style.top = some y₁) ∧
    (∀ e ∈ (createPetalCircle M PetalEffect.new x₂ y₂
        (createPetalCircle M PetalEffect.new x₁ y₁ p)).elems.drop (p.elems.length + 15),
      e.style.left = some x₂ ∧ e.style.top = some y₂) ∧
    (createPetalCircle M PetalEffect.new x₂ y₂
      (createPetalCircle M PetalEffect.new x₁ y₁ p)).elems.take (p.elems.length + 15) =
      (createPetalCircle M PetalEffect.new x₁ y₁ p).elems ∧
    (createPetalCircle M PetalEffect.new x₂ y₂
      (createPetalCircle M PetalEffect.new x₁ y₁ p)).rafQueue.take (p.rafQueue.length + 15) =
      (createPetalCircle M PetalEffect.new x₁ y₁ p).rafQueue ∧
    (createPetalCircle M PetalEffect.new x₂ y₂
      (createPetalCircle M PetalEffect.new x₁ y₁ p)).timers.take (p.timers.length + 15) =
      (createPetalCircle M PetalEffect.new x₁ y₁ p).timers ∧
    (((createPetalCircle M PetalEffect.new x₂ y₂
        (createPetalCircle M PetalEffect.new x₁ y₁ p)).rafQueue.drop
          p.rafQueue.length).take 15).map (fun cb => (cb.tx, cb.ty)) =
      ((createPetalCircle M PetalEffect.new x₁ y₁ p).rafQueue.drop p.rafQueue.length).map
        (fun cb => (cb.tx, cb.ty)) ∧
    ((createPetalCircle M PetalEffect.new x₂ y₂
        (createPetalCircle M PetalEffect.new x₁ y₁ p)).rafQueue.drop
          (p.rafQueue.length + 15)).map (fun cb => (cb.tx, cb.ty)) =
      ((createPetalCircle M PetalEffect.new x₂ y₂ p).rafQueue.drop p.rafQueue.length).map
        (fun cb => (cb.tx, cb.ty)) := by
  have hc : PetalEffect.new.petalCount = 15 := rfl
  have e1 := createPetalCircle_eq M PetalEffect.new x₁ y₁ p
  have e2 := createPetalCircle_eq M PetalEffect.new x₂ y₂
    (createPetalCircle M PetalEffect.new x₁ y₁ p)
  have e3 := createPetalCircle_eq M PetalEffect.new x₂ y₂ p
  rw [hc] at e1 e2 e3
  generalize createPetalCircle M PetalEffect.new x₂ y₂ p = q₃ at e3
  generalize createPetalCircle M PetalEffect.new x₁ y₁ p = q₁ at e1 e2
  generalize createPetalCircle M PetalEffect.new x₂ y₂ q₁ = q₂ at e2
  have hl1 := burstPetals_length M PetalEffect.new x₁ y₁ p 15
  have hq1 := burstCallbacks_length M PetalEffect.new x₁ y₁ p 15
  have ht1 := burstTimers_length p 15
  have E1 : q₁.elems = p.elems ++ burstPetals M PetalEffect.new x₁ y₁ p 15 := by rw [e1]
  have R1 : q₁.rafQueue = p.rafQueue ++ burstCallbacks M PetalEffect.new x₁ y₁ p 15 := by
    rw [e1]
  have T1 : q₁.timers = p.timers ++ burstTimers p 15 := by rw [e1]
  have E2 : q₂.elems = p.elems ++ burstPetals M PetalEffect.new x₁ y₁ p 15 ++
      burstPetals M PetalEffect.new x₂ y₂ q₁ 15 := by rw [e2, E1]
  have R2 : q₂.rafQueue = p.rafQueue ++ burstCallbacks M PetalEffect.new x₁ y₁ p 15 ++
      burstCallbacks M PetalEffect.new x₂ y₂ q₁ 15 := by rw [e2, R1]
  have T2 : q₂.timers = p.timers ++ burstTimers p 15 ++ burstTimers q₁ 15 := by rw [e2, T1]
  have R3 : q₃.rafQueue = p.rafQueue ++ burstCallbacks M PetalEffect.new x₂ y₂ p 15 := by
    rw [e3]
  rw [E1, R1, T1]
  simp only [liveMarkers, E2, R2, T2, R3]
  refine ⟨?_, ?_, ?_, ?_, ?_, ?_, ?_, ?_, ?_, ?_⟩
  · simp [burstPetals_length]
  · simp only [List.filter_append, List.length_append, filter_burstPetals,
      burstPetals_length]
  · intro hp
    simp only [List.filter_append, hp, List.nil_append, filter_burstPetals,
      filter_hasOrigin_same, filter_hasOrigin_other _ _ _ _ _ _ _ _ h,
      filter_hasOrigin_other _ _ _ _ _ _ _ _ (Ne.symm h), List.length_append,
      burstPetals_length, List.append_nil, List.length_nil]
    simp
  · intro e he
    rw [drop_take_middle _ _ _ _ hl1] at he
    exact burstPetals_origin he
  · intro e he
    rw [drop_two_left _ _ _ _ hl1] at he
    exact burstPetals_origin he
  · exact take_two_left _ _ _ _ hl1
  · exact take_two_left _ _ _ _ hq1
  · exact take_two_left _ _ _ _ ht1
  · rw [drop_take_middle _ _ _ _ hq1, List.drop_left]
  · rw [drop_two_left _ _ _ _ hq1, List.drop_left]
    exact burstCallbacks_tx_ty _ _ _ _ _ _ _

theorem randomIndex_range (r : α) (h0 : 0 ≤ r) (h1 : r < 1) (len : Nat) (hlen : 0 < len) :
    0 ≤ randomIndex r len ∧ randomIndex r len < len := by
  have hpos : (0 : α) < (len : α) := by exact_mod_cast hlen
  unfold randomIndex
  constructor
  · exact Int.floor_nonneg.2 (mul_nonneg h0 hpos.le)
  · show ⌊r * (len : α)⌋ < (len : ℤ)
    rw [Int.floor_lt]
    push_cast
    nlinarith

/-- C9: when every draw of `Math.random()` lies in `[0, 1)`, the glyph index
`floor(r·11)` lies in `0..10` and the colour index `floor(r·10)` in `0..9`; the reads of
`petalChars` (11 entries) and `petalColors` (10 entries) are in bounds, so the glyph of every
new petal is one of the 11 symbols and its colour one of the 10 palette entries, never
`undefined`; and every palette entry is a grey `#RRGGBB` with equal components. -/
theorem glyph_and_colour_in_bounds (M : JSMath α)
    (hM : ∀ n, 0 ≤ M.random n ∧ M.random n < 1) :
    PetalEffect.new.petalChars.length = 11 ∧ PetalEffect.new.petalColors.length = 10 ∧
    (∀ r : α, 0 ≤ r → r < 1 →
      (0 ≤ randomIndex r PetalEffect.new.petalChars.length ∧
        randomIndex r PetalEffect.new.petalChars.length ≤ 10) ∧
      (0 ≤ randomIndex r PetalEffect.new.petalColors.length ∧
        randomIndex r PetalEffect.new.petalColors.length ≤ 9) ∧
      (∃ g, jsIndex PetalEffect.new.petalChars
          (randomIndex r PetalEffect.new.petalChars.length) = some g ∧
        g ∈ PetalEffect.new.petalChars) ∧
      (∃ c, jsIndex PetalEffect.new.petalColors
          (randomIndex r PetalEffect.new.petalColors.length) = some c ∧
        c ∈ PetalEffect.new.petalColors)) ∧
    (∀ (x y : α) (p : Page α),
      ∀ e ∈ (createPetalCircle M PetalEffect.new x y p).elems.drop p.elems.length,
        (∃ g, e.innerHTML = some g ∧ g ∈ PetalEffect.new.petalChars) ∧
        (∃ c, e.style.color = some c ∧ c ∈ PetalEffect.new.petalColors ∧
          isGrey c = true)) ∧
    (∀ c ∈ PetalEffect.new.petalColors, isGrey c = true) := by
  have hchars : PetalEffect.new.petalChars.length = 11 := rfl
  have hcolors : PetalEffect.new.petalColors.length = 10 := rfl
  have key : ∀ r : α, 0 ≤ r → r < 1 →
      (∃ g, jsIndex PetalEffect.new.petalChars
          (randomIndex r PetalEffect.new.petalChars.length) = some g ∧
        g ∈ PetalEffect.new.petalChars) ∧
      (∃ c, jsIndex PetalEffect.new.petalColors
          (randomIndex r PetalEffect.new.petalColors.length) = some c ∧
        c ∈ PetalEffect.new.petalColors) := by
    intro r h0 h1
    obtain ⟨a0, a1⟩ := randomIndex_range r h0 h1 PetalEffect.new.petalChars.length
      (by rw [hchars]; norm_num)
    obtain ⟨b0, b1⟩ := randomIndex_range r h0 h1 PetalEffect.new.petalColors.length
      (by rw [hcolors]; norm_num)
    exact ⟨jsIndex_in_bounds _ _ a0 a1, jsIndex_in_bounds _ _ b0 b1⟩
  refine ⟨hchars, hcolors, ?_, ?_, petalColors_grey⟩
  · intro r h0 h1
    obtain ⟨a0, a1⟩ := randomIndex_range r h0 h1 PetalEffect.new.petalChars.length
      (by rw [hchars]; norm_num)
    obtain ⟨b0, b1⟩ := randomIndex_range r h0 h1 PetalEffect.new.petalColors.length
      (by rw [hcolors]; norm_num)
    have a2 : randomIndex r PetalEffect.new.petalChars.length < ((11 : ℕ) : ℤ) := a1
    have b2 : randomIndex r PetalEffect.new.petalColors.length < ((10 : ℕ) : ℤ) := b1
    refine ⟨⟨a0, by omega⟩, ⟨b0, by omega⟩, key r h0 h1⟩
  · intro x y p e he
    rw [createPetalCircle_eq] at he
    simp only [List.drop_left] at he
    obtain ⟨i, -, rfl⟩ := mem_burstPetals he
    obtain ⟨h0, h1⟩ := hM (p.randomCalls + 3 * i)
    obtain ⟨h0', h1'⟩ := hM (p.randomCalls + 3 * i + 1)
    obtain ⟨c, hc, hmem⟩ := (key _ h0' h1').2
    exact ⟨(key _ h0 h1).1, c, hc, hmem, petalColors_grey c hmem⟩

/-- C8: evaluation at the draw `r = 0.5`, which lies in `[0, 1)`.  For a burst at
`(100, 100)` on the empty page with every draw equal to `0.5`, the timer of petal 0 has
delay 2000 ms, while its next-paint callback gives it an animation of `2.25` seconds:
the removal delay is shorter than the animation, so the petal is removed before its
animation has ended. -/
theorem removal_precedes_animation_end (PI : ℚ) (cos sin : ℚ → ℚ) :
    (0 : ℚ) ≤ 0.5 ∧ (0.5 : ℚ) < 1 ∧
    animationDuration (0.5 : ℚ) = 2.25 ∧
    (removalDelay : ℚ) < animationDuration (0.5 : ℚ) * 1000 ∧
    ∃ (t : Timer) (cb : RafCallback ℚ) (e : Element ℚ),
      (createPetalCircle (JSMath.mk PI cos sin (fun _ => 0.5)) PetalEffect.new 100 100
        (Page.mk [] [] [] 0)).timers[0]? = some t ∧
      t.petal = 0 ∧ t.delay = 2000 ∧
      (createPetalCircle (JSMath.mk PI cos sin (fun _ => 0.5)) PetalEffect.new 100 100
        (Page.mk [] [] [] 0)).rafQueue[0]? = some cb ∧
      cb.petal = 0 ∧
      (runRafCallback (JSMath.mk PI cos sin (fun _ => 0.5)) cb
        (createPetalCircle (JSMath.mk PI cos sin (fun _ => 0.5)) PetalEffect.new 100 100
          (Page.mk [] [] [] 0))).elems[0]? = some e ∧
      e.style.animation = some 2.25 ∧
      (t.delay : ℚ) < 2.25 * 1000 := by
  have hd : animationDuration (0.5 : ℚ) = 2.25 := by
    unfold animationDuration
    norm_num
  have ht := timers_get_burst (JSMath.mk PI cos sin (fun _ => 0.5)) 100 100
    (Page.mk [] [] [] 0) 0 (by norm_num)
  have hq := rafQueue_get_burst (JSMath.mk PI cos sin (fun _ => 0.5)) 100 100
    (Page.mk [] [] [] 0) 0 (by norm_num)
  have hlen := createPetalCircle_length
    (JSMath.mk PI cos sin (fun _ => 0.5)) 100 100 (Page.mk [] [] [] 0)
  simp only [List.length_nil, Nat.add_zero, Nat.zero_add] at ht hq hlen
  have hex : ∃ e, (createPetalCircle (JSMath.mk PI cos sin (fun _ => 0.5)) PetalEffect.new
      100 100 (Page.mk [] [] [] 0)).elems[0]? = some e := by
    refine ⟨_, List.getElem?_eq_getElem ?_⟩
    rw [hlen]
    norm_num
  obtain ⟨e, he⟩ := hex
  refine ⟨by norm_num, by norm_num, hd, ?_, _, _, _, ht, rfl, rfl, hq, rfl,
    runRafCallback_elem _ _ _ e he, ?_, ?_⟩
  · rw [hd]
    norm_num [removalDelay]
  · simp only [hd]
  · norm_num

end PetalProofs

section RealProofs

theorem angle_real (M : JSMath ℝ) (hpi : M.PI = Real.pi) (i : ℕ) :
    angle M PetalEffect.new i = 2 * Real.pi * i / 15 := by
  have hc : PetalEffect.new.petalCount = 15 := rfl
  simp only [angle, hpi, hc]
  push_cast
  ring

/-- C3: with `Math.PI = π`, the angle `(i / petalCount) * Math.PI * 2` of petal `i < 15`
is `2π·i/15`; it lies in `[0, 2π)`; a petal `j` with the same angle is the same petal;
consecutive petals differ by `2π/15`, and so do petal 14 and petal 0 after one full turn. -/
theorem angles_evenly_spaced (M : JSMath ℝ) (hpi : M.PI = Real.pi) (i j : ℕ)
    (hi : i < 15) :
    angle M PetalEffect.new i = 2 * Real.pi * i / 15 ∧
    0 ≤ angle M PetalEffect.new i ∧ angle M PetalEffect.new i < 2 * Real.pi ∧
    (angle M PetalEffect.new i = angle M PetalEffect.new j → i = j) ∧
    (i + 1 < 15 →
      angle M PetalEffect.new (i + 1) - angle M PetalEffect.new i = 2 * Real.pi / 15) ∧
    angle M PetalEffect.new 0 + 2 * Real.pi - angle M PetalEffect.new 14 =
      2 * Real.pi / 15 := by
  have hpos := Real.pi_pos
  have hi' : (i : ℝ) < 15 := by exact_mod_cast hi
  have hi0 : (0 : ℝ) ≤ (i : ℝ) := Nat.cast_nonneg i
  refine ⟨angle_real M hpi i, ?_, ?_, ?_, ?_, ?_⟩
  · rw [angle_real M hpi]
    positivity
  · rw [angle_real M hpi, div_lt_iff₀ (by norm_num)]
    nlinarith
  · intro h
    rw [angle_real M hpi, angle_real M hpi] at h
    have h2 : (i : ℝ) = (j : ℝ) := by
      have h3 : 2 * Real.pi * (i : ℝ) = 2 * Real.pi * (j : ℝ) :=
        (div_left_inj' (by norm_num)).1 h
      exact mul_left_cancel₀ (by positivity) h3
    exact_mod_cast h2
  · intro _
    rw [angle_real M hpi, angle_real M hpi]
    push_cast
    ring
  · rw [angle_real M hpi, angle_real M hpi]
    push_cast
    ring

theorem tx_real (M : JSMath ℝ) (hpi : M.PI = Real.pi) (hcos : M.cos = Real.cos)
    (x : ℝ) (i : ℕ) (cb : RafCallback ℝ) (hx : cb.x = x)
    (hX : cb.petalX = petalX M PetalEffect.new x i) :
    cb.tx = 200 * Real.cos (2 * Real.pi * i / 15) := by
  simp only [RafCallback.tx, hx, hX, petalX, radius, hcos, angle_real M hpi]
  ring

theorem ty_real (M : JSMath ℝ) (hpi : M.PI = Real.pi) (hsin : M.sin = Real.sin)
    (y : ℝ) (i : ℕ) (cb : RafCallback ℝ) (hy : cb.y = y)
    (hY : cb.petalY = petalY M PetalEffect.new y i) :
    cb.ty = 200 * Real.sin (2 * Real.pi * i / 15) := by
  simp only [RafCallback.ty, hy, hY, petalY, radius, hsin, angle_real M hpi]
  ring

/-- C2: with the real `Math.PI`, `Math.cos` and `Math.sin`, the next-paint callback of
petal `i < 15` of a burst at `(x, y)` hands the petal the displacement
`(tx, ty) = (2·(petalX − x), 2·(petalY − y))`, twice the vector from the origin to the ring
target; this is `(200·cos θ, 200·sin θ)` with `θ = 2π·i/15`, the same for every activation
point and page, and its length is `200 = 2·radius`. -/
theorem displacement_twice_ring_vector (M : JSMath ℝ) (hpi : M.PI = Real.pi)
    (hcos : M.cos = Real.cos) (hsin : M.sin = Real.sin) (x y : ℝ) (p : Page ℝ) (i : ℕ)
    (hi : i < 15) :
    ∃ cb : RafCallback ℝ,
      (createPetalCircle M PetalEffect.new x y p).rafQueue[p.rafQueue.length + i]? =
        some cb ∧
      cb.petal = p.elems.length + i ∧
      cb.petalX = x + radius * Real.cos (angle M PetalEffect.new i) ∧
      cb.petalY = y + radius * Real.sin (angle M PetalEffect.new i) ∧
      cb.tx = 2 * (cb.petalX - x) ∧ cb.ty = 2 * (cb.petalY - y) ∧
      cb.tx = 200 * Real.cos (2 * Real.pi * i / 15) ∧
      cb.ty = 200 * Real.sin (2 * Real.pi * i / 15) ∧
      Real.sqrt (cb.tx ^ 2 + cb.ty ^ 2) = 2 * radius ∧ (2 * radius : ℝ) = 200 ∧
      (∀ (s : Page ℝ) (e : Element ℝ), s.elems[cb.petal]? = some e →
        ∃ e', (runRafCallback M cb s).elems[cb.petal]? = some e' ∧
          e'.style.tx = some cb.tx ∧ e'.style.ty = some cb.ty) ∧
      (∀ (x' y' : ℝ) (p' : Page ℝ), ∃ cb' : RafCallback ℝ,
        (createPetalCircle M PetalEffect.new x' y' p').rafQueue[p'.rafQueue.length + i]? =
          some cb' ∧ cb'.tx = cb.tx ∧ cb'.ty = cb.ty) := by
  refine ⟨_, rafQueue_get_burst M x y p i hi, rfl, ?_, ?_, ?_, ?_, ?_, ?_, ?_, ?_, ?_, ?_⟩
  · simp [petalX, hcos]
  · simp [petalY, hsin]
  · simp only [RafCallback.tx]
    ring
  · simp only [RafCallback.ty]
    ring
  · exact tx_real M hpi hcos x i _ rfl rfl
  · exact ty_real M hpi hsin y i _ rfl rfl
  · rw [tx_real M hpi hcos x i _ rfl rfl, ty_real M hpi hsin y i _ rfl rfl]
    have h : (200 * Real.cos (2 * Real.pi * i / 15)) ^ 2 +
        (200 * Real.sin (2 * Real.pi * i / 15)) ^ 2 = (2 * radius : ℝ) ^ 2 := by
      have := Real.cos_sq_add_sin_sq (2 * Real.pi * i / 15)
      simp only [radius]
      nlinarith
    rw [h]
    exact Real.sqrt_sq (by simp [radius])
  · simp only [radius]
    norm_num
  · intro s e he
    exact ⟨_, runRafCallback_elem M _ s e he, rfl, rfl⟩
  · intro x' y' p'
    refine ⟨_, rafQueue_get_burst M x' y' p' i hi, ?_, ?_⟩
    · rw [tx_real M hpi hcos x' i _ rfl rfl, tx_real M hpi hcos x i _ rfl rfl]
    · rw [ty_real M hpi hsin y' i _ rfl rfl, ty_real M hpi hsin y i _ rfl rfl]

theorem createPetalCircle_fifteen_markers_witness :
    (createPetalCircle (JSMath.mk Real.pi Real.cos Real.sin (fun _ => 0.5)) PetalEffect.new 100 100
      (Page.mk [] [] [] 0)).elems.length = 15 ∧
    (createPetalCircle (JSMath.mk Real.pi Real.cos Real.sin (fun _ => 0.5)) PetalEffect.new 100 100
      (Page.mk [] [] [] 0)).rafQueue.length = 15 ∧
    (createPetalCircle (JSMath.mk Real.pi Real.cos Real.sin (fun _ => 0.5)) PetalEffect.new 100 100
      (Page.mk [] [] [] 0)).timers.length = 15 := by
  obtain ⟨h1, -, -, -, h5, -, -, h8, -⟩ := createPetalCircle_fifteen_markers
    (JSMath.mk Real.pi Real.cos Real.sin (fun _ => 0.5)) 100 100 (Page.mk [] [] [] 0)
  exact ⟨by simpa using h1, by simpa using h5, by simpa using h8⟩

theorem displacement_twice_ring_vector_witness :
    Real.pi = Real.pi ∧ Real.cos = Real.cos ∧ Real.sin = Real.sin ∧ 3 < 15 ∧
    ∃ cb : RafCallback ℝ,
      (createPetalCircle (JSMath.mk Real.pi Real.cos Real.sin (fun _ => 0.5)) PetalEffect.new 100 100
        (Page.mk [] [] [] 0)).rafQueue[3]? = some cb ∧
      cb.tx = 200 * Real.cos (2 * Real.pi * (3 : ℕ) / 15) ∧
      cb.ty = 200 * Real.sin (2 * Real.pi * (3 : ℕ) / 15) ∧
      Real.sqrt (cb.tx ^ 2 + cb.ty ^ 2) = 2 * radius := by
  obtain ⟨cb, h1, -, -, -, -, -, h7, h8, h9, -, -⟩ := displacement_twice_ring_vector
    (JSMath.mk Real.pi Real.cos Real.sin (fun _ => 0.5)) rfl rfl rfl 100 100 (Page.mk [] [] [] 0) 3 (by norm_num)
  exact ⟨rfl, rfl, rfl, by norm_num, cb, by simpa using h1, h7, h8, h9⟩

theorem angles_evenly_spaced_witness :
    Real.pi = Real.pi ∧ 3 < 15 ∧
    angle (JSMath.mk Real.pi Real.cos Real.sin (fun _ => 0.5)) PetalEffect.new 3 = 2 * Real.pi * (3 : ℕ) / 15 ∧
    angle (JSMath.mk Real.pi Real.cos Real.sin (fun _ => 0.5)) PetalEffect.new (3 + 1) - angle (JSMath.mk Real.pi Real.cos Real.sin (fun _ => 0.5)) PetalEffect.new 3 = 2 * Real.pi / 15 ∧
    angle (JSMath.mk Real.pi Real.cos Real.sin (fun _ => 0.5)) PetalEffect.new 0 + 2 * Real.pi - angle (JSMath.mk Real.pi Real.cos Real.sin (fun _ => 0.5)) PetalEffect.new 14 =
      2 * Real.pi / 15 := by
  obtain ⟨h1, -, -, -, h5, h6⟩ := angles_evenly_spaced (JSMath.mk Real.pi Real.cos Real.sin (fun _ => 0.5)) rfl 3 4 (by norm_num)
  exact ⟨rfl, by norm_num, h1, h5 (by norm_num), h6⟩

theorem removal_fixed_delay_guarded_witness :
    3 < 15 ∧
    (createPetalCircle (JSMath.mk Real.pi Real.cos Real.sin (fun _ => 0.5)) PetalEffect.new 100 100
      (Page.mk [] [] [] 0)).timers[3]? = some (Timer.mk 2000 3) := by
  obtain ⟨h1, -⟩ := removal_fixed_delay_guarded (JSMath.mk Real.pi Real.cos Real.sin (fun _ => 0.5)) 100 100 (Page.mk [] [] [] 0) 3 (by norm_num)
  exact ⟨by norm_num, by simpa using h1⟩

theorem two_bursts_do_not_interact_witness :
    ((100 : ℝ), (100 : ℝ)) ≠ (300, 200) ∧
    (liveMarkers (createPetalCircle (JSMath.mk Real.pi Real.cos Real.sin (fun _ => 0.5)) PetalEffect.new 300 200
      (createPetalCircle (JSMath.mk Real.pi Real.cos Real.sin (fun _ => 0.5)) PetalEffect.new 100 100 (Page.mk [] [] [] 0)))).length = 30 ∧
    ((liveMarkers (createPetalCircle (JSMath.mk Real.pi Real.cos Real.sin (fun _ => 0.5)) PetalEffect.new 300 200
      (createPetalCircle (JSMath.mk Real.pi Real.cos Real.sin (fun _ => 0.5)) PetalEffect.new 100 100 (Page.mk [] [] [] 0)))).filter
        (hasOrigin 100 100)).length = 15 ∧
    ((liveMarkers (createPetalCircle (JSMath.mk Real.pi Real.cos Real.sin (fun _ => 0.5)) PetalEffect.new 300 200
      (createPetalCircle (JSMath.mk Real.pi Real.cos Real.sin (fun _ => 0.5)) PetalEffect.new 100 100 (Page.mk [] [] [] 0)))).filter
        (hasOrigin 300 200)).length = 15 := by
  have hne : ((100 : ℝ), (100 : ℝ)) ≠ (300, 200) := by
    intro h
    have h1 := congrArg Prod.fst h
    norm_num at h1
  obtain ⟨-, -, h3, -⟩ := two_bursts_do_not_interact (JSMath.mk Real.pi Real.cos Real.sin (fun _ => 0.5)) 100 100 300 200 (Page.mk [] [] [] 0) hne
  exact ⟨hne, h3 rfl⟩

theorem glyph_and_colour_in_bounds_witness :
    (∀ n : ℕ, (0 : ℝ) ≤ (JSMath.mk Real.pi Real.cos Real.sin (fun _ => 0.5)).random n ∧ (JSMath.mk Real.pi Real.cos Real.sin (fun _ => 0.5)).random n < 1) ∧
    (0 ≤ randomIndex (0.5 : ℝ) PetalEffect.new.petalChars.length ∧
      randomIndex (0.5 : ℝ) PetalEffect.new.petalChars.length ≤ 10) ∧
    (0 ≤ randomIndex (0.5 : ℝ) PetalEffect.new.petalColors.length ∧
      randomIndex (0.5 : ℝ) PetalEffect.new.petalColors.length ≤ 9) := by
  have hM : ∀ n : ℕ, (0 : ℝ) ≤ (JSMath.mk Real.pi Real.cos Real.sin (fun _ => 0.5)).random n ∧ (JSMath.mk Real.pi Real.cos Real.sin (fun _ => 0.5)).random n < 1 := fun _ => by norm_num
  obtain ⟨-, -, h3, -⟩ := glyph_and_colour_in_bounds (JSMath.mk Real.pi Real.cos Real.sin (fun _ => 0.5)) hM
  obtain ⟨a, b, -⟩ := h3 0.5 (by norm_num) (by norm_num)
  exact ⟨hM, a, b⟩

end RealProofs

/-! ## Rounding to binary64 -/

section Binary64

theorem floor_le_roundHalfEven (t : ℚ) : ⌊t⌋ ≤ roundHalfEven t := by
  unfold roundHalfEven
  split_ifs <;> omega

theorem roundHalfEven_le_floor_add_one (t : ℚ) : roundHalfEven t ≤ ⌊t⌋ + 1 := by
  unfold roundHalfEven
  split_ifs <;> omega

theorem roundHalfEven_intCast (n : ℤ) : roundHalfEven (n : ℚ) = n := by
  unfold roundHalfEven
  simp

theorem roundHalfEven_mono {s t : ℚ} (h : s ≤ t) : roundHalfEven s ≤ roundHalfEven t := by
  rcases lt_or_eq_of_le (Int.floor_mono h) with hlt | heq
  · calc roundHalfEven s ≤ ⌊s⌋ + 1 := roundHalfEven_le_floor_add_one s
      _ ≤ ⌊t⌋ := hlt
      _ ≤ roundHalfEven t := floor_le_roundHalfEven t
  · unfold roundHalfEven
    rw [heq]
    have hst : s - (⌊t⌋ : ℚ) ≤ t - (⌊t⌋ : ℚ) := by linarith
    split_ifs <;> first | omega | (exfalso; linarith)

theorem roundHalfEven_eq (t : ℚ) (n : ℤ) (h1 : (n : ℚ) - 1 / 2 ≤ t) (h2 : t ≤ (n : ℚ) + 1 / 2)
    (h3 : t = (n : ℚ) - 1 / 2 → n % 2 = 0) (h4 : t = (n : ℚ) + 1 / 2 → n % 2 = 0) :
    roundHalfEven t = n := by
  rcases lt_or_le t (n : ℚ) with hlt | hge
  · have hf : ⌊t⌋ = n - 1 := by
      rw [Int.floor_eq_iff]
      push_cast
      constructor <;> linarith
    unfold roundHalfEven
    rw [hf]
    push_cast
    split_ifs with a b c
    · exfalso; linarith
    · ring
    · have ht : t = (n : ℚ) - 1 / 2 := by linarith
      have := h3 ht
      omega
    · ring
  · have hf : ⌊t⌋ = n := by
      rw [Int.floor_eq_iff]
      constructor <;> linarith
    unfold roundHalfEven
    rw [hf]
    split_ifs with a b c
    · rfl
    · exfalso; linarith
    · rfl
    · have ht : t = (n : ℚ) + 1 / 2 := by linarith
      have := h4 ht
      omega

theorem log_eq_of_bounds (q : ℚ) (e : ℤ) (h1 : (2 : ℚ) ^ e ≤ q) (h2 : q < (2 : ℚ) ^ (e + 1)) :
    Int.log 2 q = e := by
  have hq : 0 < q := lt_of_lt_of_le (by positivity) h1
  have a : e ≤ Int.log 2 q := (Int.zpow_le_iff_le_log (by norm_num) hq).1 (by exact_mod_cast h1)
  have b : Int.log 2 q < e + 1 := (Int.lt_zpow_iff_log_lt (by norm_num) hq).1 (by exact_mod_cast h2)
  omega

theorem round64_eq (q : ℚ) (e n : ℤ) (he : -1022 ≤ e) (h1 : (2 : ℚ) ^ e ≤ |q|)
    (h2 : |q| < (2 : ℚ) ^ (e + 1)) (hn : roundHalfEven (q / 2 ^ (e - 52)) = n) :
    round64 q = n * 2 ^ (e - 52) := by
  have hl := log_eq_of_bounds |q| e h1 h2
  have hexp : exponent64 q = e := by
    unfold exponent64
    rw [hl]
    exact max_eq_left he
  unfold round64 ulp64
  rw [hexp, hn]

theorem round64_eq_pos (q : ℚ) (e n : ℤ) (he : -1022 ≤ e) (h1 : (2 : ℚ) ^ e ≤ q)
    (h2 : q < (2 : ℚ) ^ (e + 1)) (hn : roundHalfEven (q / 2 ^ (e - 52)) = n) :
    round64 q = n * 2 ^ (e - 52) := by
  have hq : 0 < q := lt_of_lt_of_le (by positivity) h1
  exact round64_eq q e n he (by rwa [abs_of_pos hq]) (by rwa [abs_of_pos hq]) hn

theorem ulp64_pos (q : ℚ) : 0 < ulp64 q := by
  unfold ulp64
  positivity

theorem round64_zero : round64 0 = 0 := by
  unfold round64
  simp [roundHalfEven]

theorem round64_nonneg {q : ℚ} (h : 0 ≤ q) : 0 ≤ round64 q := by
  unfold round64
  have h1 : (0 : ℚ) ≤ q / ulp64 q := div_nonneg h (ulp64_pos q).le
  have h2 : (0 : ℤ) ≤ roundHalfEven (q / ulp64 q) :=
    le_trans (Int.floor_nonneg.2 h1) (floor_le_roundHalfEven _)
  exact mul_nonneg (by exact_mod_cast h2) (ulp64_pos q).le

theorem two_pow_53_mul (e : ℤ) : ((2 ^ 53 : ℤ) : ℚ) * 2 ^ (e - 52) = 2 ^ (e + 1) := by
  have h : ((2 ^ 53 : ℤ) : ℚ) = (2 : ℚ) ^ (53 : ℤ) := by norm_num
  rw [h, ← zpow_add₀ (by norm_num)]
  congr 1
  ring

theorem two_pow_52_mul (e : ℤ) : ((2 ^ 52 : ℤ) : ℚ) * 2 ^ (e - 52) = 2 ^ e := by
  have h : ((2 ^ 52 : ℤ) : ℚ) = (2 : ℚ) ^ (52 : ℤ) := by norm_num
  rw [h, ← zpow_add₀ (by norm_num)]
  congr 1
  ring

theorem exponent64_mono {a b : ℚ} (ha : 0 < a) (hab : a ≤ b) :
    exponent64 a ≤ exponent64 b := by
  unfold exponent64
  rw [abs_of_pos ha, abs_of_pos (lt_of_lt_of_le ha hab)]
  exact max_le_max (Int.log_mono_right ha hab) le_rfl

theorem round64_le_binade {a : ℚ} (ha : 0 < a) :
    round64 a ≤ 2 ^ (exponent64 a + 1) := by
  have hlog : a < (2 : ℚ) ^ (Int.log 2 a + 1) := by
    have h : a < ((2 : ℕ) : ℚ) ^ (Int.log 2 a + 1) :=
      Int.lt_zpow_succ_log_self (by norm_num) a
    exact_mod_cast h
  have hle : Int.log 2 a ≤ exponent64 a := by
    unfold exponent64
    rw [abs_of_pos ha]
    exact le_max_left _ _
  have hlt : a < (2 : ℚ) ^ (exponent64 a + 1) :=
    lt_of_lt_of_le hlog (zpow_le_zpow_right₀ (by norm_num) (by omega))
  have hdiv : a / ulp64 a ≤ ((2 ^ 53 : ℤ) : ℚ) := by
    rw [div_le_iff₀ (ulp64_pos a)]
    unfold ulp64
    rw [two_pow_53_mul]
    exact hlt.le
  have hr : roundHalfEven (a / ulp64 a) ≤ 2 ^ 53 := by
    have := roundHalfEven_mono hdiv
    rwa [roundHalfEven_intCast] at this
  unfold round64
  calc (roundHalfEven (a / ulp64 a) : ℚ) * ulp64 a ≤ ((2 ^ 53 : ℤ) : ℚ) * ulp64 a :=
        mul_le_mul_of_nonneg_right (by exact_mod_cast hr) (ulp64_pos a).le
    _ = 2 ^ (exponent64 a + 1) := by
        unfold ulp64
        exact two_pow_53_mul _

theorem binade_le_round64 {b : ℚ} (hb : 0 < b) (he : -1022 < exponent64 b) :
    (2 : ℚ) ^ exponent64 b ≤ round64 b := by
  have hexp : exponent64 b = Int.log 2 b := by
    unfold exponent64 at he ⊢
    rw [abs_of_pos hb] at he ⊢
    rcases le_total (Int.log 2 b) (-1022) with h | h
    · rw [max_eq_right h] at he
      omega
    · exact max_eq_left h
  have hlog : (2 : ℚ) ^ exponent64 b ≤ b := by
    rw [hexp]
    have h : ((2 : ℕ) : ℚ) ^ Int.log 2 b ≤ b := Int.zpow_log_le_self (by norm_num) hb
    exact_mod_cast h
  have hdiv : ((2 ^ 52 : ℤ) : ℚ) ≤ b / ulp64 b := by
    rw [le_div_iff₀ (ulp64_pos b)]
    unfold ulp64
    rw [two_pow_52_mul]
    exact hlog
  have hr : 2 ^ 52 ≤ roundHalfEven (b / ulp64 b) := by
    have := roundHalfEven_mono hdiv
    rwa [roundHalfEven_intCast] at this
  unfold round64
  calc (2 : ℚ) ^ exponent64 b = ((2 ^ 52 : ℤ) : ℚ) * ulp64 b := by
        unfold ulp64
        exact (two_pow_52_mul _).symm
    _ ≤ (roundHalfEven (b / ulp64 b) : ℚ) * ulp64 b :=
        mul_le_mul_of_nonneg_right (by exact_mod_cast hr) (ulp64_pos b).le

theorem round64_mono {a b : ℚ} (ha : 0 ≤ a) (hab : a ≤ b) : round64 a ≤ round64 b := by
  rcases eq_or_lt_of_le ha with h0 | hpos
  · rw [← h0, round64_zero]
    exact round64_nonneg (le_trans ha hab)
  · have hb : 0 < b := lt_of_lt_of_le hpos hab
    rcases eq_or_lt_of_le (exponent64_mono hpos hab) with heq | hlt
    · have hu : ulp64 a = ulp64 b := by
        unfold ulp64
        rw [heq]
      unfold round64
      rw [hu]
      have hdiv : a / ulp64 b ≤ b / ulp64 b := div_le_div_of_nonneg_right hab (ulp64_pos b).le
      exact mul_le_mul_of_nonneg_right (by exact_mod_cast roundHalfEven_mono hdiv)
        (ulp64_pos b).le
    · have hmin : -1022 ≤ exponent64 a := by
        unfold exponent64
        exact le_max_right _ _
      calc round64 a ≤ 2 ^ (exponent64 a + 1) := round64_le_binade hpos
        _ ≤ 2 ^ exponent64 b := zpow_le_zpow_right₀ (by norm_num) (by omega)
        _ ≤ round64 b := binade_le_round64 hb (by omega)

theorem double_lt_one_le (r : ℚ) (hd : round64 r = r) (h0 : 0 ≤ r) (h1 : r < 1) :
    r ≤ 1 - 1 / 2 ^ 53 := by
  rcases eq_or_lt_of_le h0 with hz | hpos
  · rw [← hz]
    norm_num
  · have hlog : Int.log 2 r < 0 :=
      (Int.lt_zpow_iff_log_lt (by norm_num) hpos).1 (by simpa using h1)
    have hexp : exponent64 r ≤ -1 := by
      unfold exponent64
      rw [abs_of_pos hpos]
      exact max_le (by omega) (by norm_num)
    rcases lt_or_eq_of_le hexp with hlt | heq
    · have h2 := round64_le_binade hpos
      rw [hd] at h2
      have h3 : (2 : ℚ) ^ (exponent64 r + 1) ≤ 2 ^ (-1 : ℤ) :=
        zpow_le_zpow_right₀ (by norm_num) (by omega)
      have h4 : (2 : ℚ) ^ (-1 : ℤ) = 1 / 2 := by norm_num
      rw [h4] at h3
      have h5 : (1 : ℚ) / 2 ≤ 1 - 1 / 2 ^ 53 := by norm_num
      linarith
    · have hu : ulp64 r = 1 / 2 ^ 53 := by
        unfold ulp64
        rw [heq]
        norm_num
      have hr : r = (roundHalfEven (r / ulp64 r) : ℚ) * (1 / 2 ^ 53) := by
        conv_lhs => rw [← hd]
        unfold round64
        rw [hu]
      have hn : roundHalfEven (r / ulp64 r) < 2 ^ 53 := by
        have h6 : (roundHalfEven (r / ulp64 r) : ℚ) < ((2 ^ 53 : ℤ) : ℚ) := by
          push_cast
          have h7 : (roundHalfEven (r / ulp64 r) : ℚ) * (1 / 2 ^ 53) < 1 := by
            rw [← hr]
            exact h1
          rw [mul_one_div, div_lt_one (by positivity)] at h7
          exact h7
        exact_mod_cast h6
      have hn' : (roundHalfEven (r / ulp64 r) : ℚ) ≤ 2 ^ 53 - 1 := by
        have : roundHalfEven (r / ulp64 r) ≤ 2 ^ 53 - 1 := by omega
        exact_mod_cast this
      rw [hr]
      have hp : (0 : ℚ) < 1 / 2 ^ 53 := by positivity
      calc (roundHalfEven (r / ulp64 r) : ℚ) * (1 / 2 ^ 53) ≤ (2 ^ 53 - 1) * (1 / 2 ^ 53) :=
            mul_le_mul_of_nonneg_right hn' hp.le
        _ = 1 - 1 / 2 ^ 53 := by norm_num

theorem round64_intCast (n : ℤ) (h : |n| < 2 ^ 53) : round64 (n : ℚ) = n := by
  rcases eq_or_ne n 0 with h0 | h0
  · rw [h0]
    simpa using round64_zero
  · have hpos : 0 < n.natAbs := Int.natAbs_pos.2 h0
    have hne : n.natAbs ≠ 0 := by omega
    have habs : |(n : ℚ)| = (n.natAbs : ℚ) := by
      rw [Nat.cast_natAbs, Int.cast_abs]
    have hlt : n.natAbs < 2 ^ 53 := by
      have : (n.natAbs : ℤ) < 2 ^ 53 := by
        rw [← Int.abs_eq_natAbs]
        exact h
      exact_mod_cast this
    have he : Nat.log 2 n.natAbs < 53 := Nat.log_lt_of_lt_pow hne hlt
    have h1 : (2 : ℚ) ^ ((Nat.log 2 n.natAbs : ℕ) : ℤ) ≤ |(n : ℚ)| := by
      rw [habs, zpow_natCast]
      exact_mod_cast Nat.pow_log_le_self 2 hne
    have h2 : |(n : ℚ)| < (2 : ℚ) ^ (((Nat.log 2 n.natAbs : ℕ) : ℤ) + 1) := by
      rw [habs]
      have h3 : n.natAbs < 2 ^ (Nat.log 2 n.natAbs + 1) :=
        Nat.lt_pow_succ_log_self (by norm_num) _
      have h4 : (((Nat.log 2 n.natAbs : ℕ) : ℤ) + 1) = ((Nat.log 2 n.natAbs + 1 : ℕ) : ℤ) := by
        push_cast
        ring
      rw [h4, zpow_natCast]
      exact_mod_cast h3
    have hq : (n : ℚ) / 2 ^ (((Nat.log 2 n.natAbs : ℕ) : ℤ) - 52) =
        ((n * 2 ^ (52 - Nat.log 2 n.natAbs) : ℤ) : ℚ) := by
      have h5 : (((Nat.log 2 n.natAbs : ℕ) : ℤ) - 52) =
          -((52 - Nat.log 2 n.natAbs : ℕ) : ℤ) := by
        omega
      rw [h5, zpow_neg, zpow_natCast]
      push_cast
      rw [div_inv_eq_mul]
    rw [round64_eq (n : ℚ) _ (n * 2 ^ (52 - Nat.log 2 n.natAbs)) (by omega) h1 h2
      (by rw [hq]; exact roundHalfEven_intCast _)]
    have h5 : (((Nat.log 2 n.natAbs : ℕ) : ℤ) - 52) =
        -((52 - Nat.log 2 n.natAbs : ℕ) : ℤ) := by
      omega
    rw [h5, zpow_neg, zpow_natCast]
    push_cast
    rw [mul_assoc, mul_inv_cancel₀ (by positivity), mul_one]

theorem round64_natCast (n : ℕ) (h : n < 2 ^ 53) : round64 (n : ℚ) = n := by
  have := round64_intCast (n : ℤ) (by
    rw [abs_of_nonneg (by positivity)]
    exact_mod_cast h)
  simpa using this

theorem round64_ofNat (n : ℕ) [n.AtLeastTwo] (h : n < 2 ^ 53) :
    round64 (OfNat.ofNat n : ℚ) = OfNat.ofNat n := by
  have := round64_natCast n h
  simpa using this

theorem round64_eq_neg (q : ℚ) (e n : ℤ) (he : -1022 ≤ e) (h1 : (2 : ℚ) ^ e ≤ -q)
    (h2 : -q < (2 : ℚ) ^ (e + 1)) (hn : roundHalfEven (q / 2 ^ (e - 52)) = n) :
    round64 q = n * 2 ^ (e - 52) := by
  have hq : q < 0 := by
    have : (0 : ℚ) < 2 ^ e := by positivity
    linarith
  exact round64_eq q e n he (by rwa [abs_of_neg hq]) (by rwa [abs_of_neg hq]) hn

theorem F64.eq_of_val {a b : F64} (h : a.val = b.val) : a = b := by
  cases a
  cases b
  simp_all

theorem F64.zero_val : (0 : F64).val = 0 := rfl

theorem F64.one_val : (1 : F64).val = 1 := rfl

theorem F64.add_val (a b : F64) : (a + b).val = round64 (a.val + b.val) := rfl

theorem F64.sub_val (a b : F64) : (a - b).val = round64 (a.val - b.val) := rfl

theorem F64.mul_val (a b : F64) : (a * b).val = round64 (a.val * b.val) := rfl

theorem F64.div_val (a b : F64) : (a / b).val = round64 (a.val / b.val) := rfl

theorem F64.natCast_val (n : ℕ) : ((n : ℕ) : F64).val = round64 (n : ℚ) := rfl

theorem F64.ofNat_val (n : ℕ) [n.AtLeastTwo] (h : n < 2 ^ 53) :
    (OfNat.ofNat n : F64).val = OfNat.ofNat n := by
  show round64 ((OfNat.ofNat n : ℕ) : ℚ) = OfNat.ofNat n
  simpa using round64_natCast n h

theorem F64.one_and_half_val : (1.5 : F64).val = 3 / 2 := by
  show round64 (1.5 : ℚ) = 3 / 2
  rw [round64_eq_pos 1.5 0 (3 * 2 ^ 51) (by norm_num) (by norm_num) (by norm_num)
    (roundHalfEven_eq _ _ (by norm_num) (by norm_num) (by norm_num) (by norm_num))]
  norm_num

end Binary64

/-! ## Ranges of the random values, in binary64 -/

section RandomRanges

theorem rotation_val (r : F64) : (rotation r).val = round64 (r.val * 720) := by
  unfold rotation
  rw [F64.mul_val, F64.ofNat_val 720 (by norm_num)]

theorem fontSize_val (r : F64) : (fontSize r).val = round64 (round64 (r.val * 15) + 25) := by
  unfold fontSize
  rw [F64.add_val, F64.mul_val, F64.ofNat_val 15 (by norm_num), F64.ofNat_val 25 (by norm_num)]

theorem animationDuration_val (r : F64) :
    (animationDuration r).val = round64 (round64 (r.val * (3 / 2)) + 3 / 2) := by
  unfold animationDuration
  rw [F64.add_val, F64.mul_val, F64.one_and_half_val]

theorem round64_below_720 : round64 ((1 - 1 / 2 ^ 53) * 720) = 720 - 1 / 2 ^ 43 := by
  rw [round64_eq_pos ((1 - 1 / 2 ^ 53) * 720) 9 (720 * 2 ^ 43 - 1) (by norm_num) (by norm_num)
    (by norm_num)
    (roundHalfEven_eq _ _ (by norm_num) (by norm_num) (by norm_num) (by norm_num))]
  norm_num

theorem rotation_range64 (r : F64) (hd : IsDouble r.val) (h0 : 0 ≤ r.val) (h1 : r.val < 1) :
    0 ≤ (rotation r).val ∧ (rotation r).val < 720 := by
  rw [rotation_val]
  constructor
  · exact round64_nonneg (by positivity)
  · have hle := double_lt_one_le r.val hd h0 h1
    have hm : r.val * 720 ≤ (1 - 1 / 2 ^ 53) * 720 := by linarith
    have := round64_mono (by positivity) hm
    rw [round64_below_720] at this
    have h2 : (720 : ℚ) - 1 / 2 ^ 43 < 720 := by norm_num
    linarith

theorem fontSize_range64 (r : F64) (h0 : 0 ≤ r.val) (h1 : r.val < 1) :
    25 ≤ (fontSize r).val ∧ (fontSize r).val ≤ 40 := by
  rw [fontSize_val]
  have ha0 : 0 ≤ round64 (r.val * 15) := round64_nonneg (by positivity)
  have ha1 : round64 (r.val * 15) ≤ 15 := by
    have := round64_mono (a := r.val * 15) (b := 15) (by positivity) (by linarith)
    rwa [round64_ofNat 15 (by norm_num)] at this
  constructor
  · have := round64_mono (a := 25) (b := round64 (r.val * 15) + 25) (by norm_num)
      (by linarith)
    rwa [round64_ofNat 25 (by norm_num)] at this
  · have := round64_mono (a := round64 (r.val * 15) + 25) (b := 40) (by linarith)
      (by linarith)
    rwa [round64_ofNat 40 (by norm_num)] at this

theorem animationDuration_range64 (r : F64) (h0 : 0 ≤ r.val) (h1 : r.val < 1) :
    3 / 2 ≤ (animationDuration r).val ∧ (animationDuration r).val ≤ 3 := by
  rw [animationDuration_val]
  have h32 : round64 (3 / 2) = 3 / 2 := by
    have := F64.one_and_half_val
    have h : (1.5 : F64).val = round64 (1.5 : ℚ) := rfl
    rw [h] at this
    norm_num at this
    exact this
  have ha0 : 0 ≤ round64 (r.val * (3 / 2)) := round64_nonneg (by positivity)
  have ha1 : round64 (r.val * (3 / 2)) ≤ 3 / 2 := by
    have := round64_mono (a := r.val * (3 / 2)) (b := 3 / 2) (by positivity) (by linarith)
    rwa [h32] at this
  constructor
  · have := round64_mono (a := 3 / 2) (b := round64 (r.val * (3 / 2)) + 3 / 2) (by norm_num)
      (by linarith)
    rwa [h32] at this
  · have := round64_mono (a := round64 (r.val * (3 / 2)) + 3 / 2) (b := 3) (by linarith)
      (by linarith)
    rwa [round64_ofNat 3 (by norm_num)] at this

theorem isDouble_half : IsDouble (1 / 2) := by
  unfold IsDouble
  rw [round64_eq_pos (1 / 2) (-1) (2 ^ 52) (by norm_num) (by norm_num) (by norm_num)
    (roundHalfEven_eq _ _ (by norm_num) (by norm_num) (by norm_num) (by norm_num))]
  norm_num

/-- C5, as stated, fails in binary64.  The draw `r = 1 − 2⁻⁵²` is a double in `[0, 1)`, and
line 42 gives it the font size `r * 15 + 25 = 40` exactly: the product rounds to
`15 − 2⁻⁴⁸` and the sum `40 − 2⁻⁴⁸` is a tie that rounds to the even neighbour 40.
Likewise the draw `1 − 2⁻⁵³` gets the animation duration `r * 1.5 + 1.5 = 3` exactly. -/
theorem upper_bounds_reached :
    (IsDouble (1 - 1 / 2 ^ 52) ∧ (0 : ℚ) ≤ 1 - 1 / 2 ^ 52 ∧ (1 - 1 / 2 ^ 52 : ℚ) < 1 ∧
      (fontSize (F64.mk (1 - 1 / 2 ^ 52))).val = 40 ∧
      ¬ (fontSize (F64.mk (1 - 1 / 2 ^ 52))).val < 40) ∧
    (IsDouble (1 - 1 / 2 ^ 53) ∧ (0 : ℚ) ≤ 1 - 1 / 2 ^ 53 ∧ (1 - 1 / 2 ^ 53 : ℚ) < 1 ∧
      (animationDuration (F64.mk (1 - 1 / 2 ^ 53))).val = 3 ∧
      ¬ (animationDuration (F64.mk (1 - 1 / 2 ^ 53))).val < 3) := by
  have d52 : IsDouble (1 - 1 / 2 ^ 52) := by
    unfold IsDouble
    rw [round64_eq_pos (1 - 1 / 2 ^ 52) (-1) (2 ^ 53 - 2) (by norm_num) (by norm_num)
      (by norm_num)
      (roundHalfEven_eq _ _ (by norm_num) (by norm_num) (by norm_num) (by norm_num))]
    norm_num
  have d53 : IsDouble (1 - 1 / 2 ^ 53) := by
    unfold IsDouble
    rw [round64_eq_pos (1 - 1 / 2 ^ 53) (-1) (2 ^ 53 - 1) (by norm_num) (by norm_num)
      (by norm_num)
      (roundHalfEven_eq _ _ (by norm_num) (by norm_num) (by norm_num) (by norm_num))]
    norm_num
  have p1 : round64 ((1 - 1 / 2 ^ 52) * 15) = 15 - 1 / 2 ^ 48 := by
    rw [round64_eq_pos ((1 - 1 / 2 ^ 52) * 15) 3 (15 * 2 ^ 49 - 2) (by norm_num)
      (by norm_num) (by norm_num)
      (roundHalfEven_eq _ _ (by norm_num) (by norm_num) (by norm_num) (by norm_num))]
    norm_num
  have p2 : round64 (15 - 1 / 2 ^ 48 + 25) = 40 := by
    rw [round64_eq_pos (15 - 1 / 2 ^ 48 + 25) 5 (40 * 2 ^ 47) (by norm_num)
      (by norm_num) (by norm_num)
      (roundHalfEven_eq _ _ (by norm_num) (by norm_num) (by norm_num) (by norm_num))]
    norm_num
  have q1 : round64 ((1 - 1 / 2 ^ 53) * (3 / 2)) = 3 / 2 - 1 / 2 ^ 52 := by
    rw [round64_eq_pos ((1 - 1 / 2 ^ 53) * (3 / 2)) 0 (3 * 2 ^ 51 - 1) (by norm_num)
      (by norm_num) (by norm_num)
      (roundHalfEven_eq _ _ (by norm_num) (by norm_num) (by norm_num) (by norm_num))]
    norm_num
  have q2 : round64 (3 / 2 - 1 / 2 ^ 52 + 3 / 2) = 3 := by
    rw [round64_eq_pos (3 / 2 - 1 / 2 ^ 52 + 3 / 2) 1 (3 * 2 ^ 51) (by norm_num)
      (by norm_num) (by norm_num)
      (roundHalfEven_eq _ _ (by norm_num) (by norm_num) (by norm_num) (by norm_num))]
    norm_num
  have hf : (fontSize (F64.mk (1 - 1 / 2 ^ 52))).val = 40 := by
    rw [fontSize_val, p1, p2]
  have hdur : (animationDuration (F64.mk (1 - 1 / 2 ^ 53))).val = 3 := by
    rw [animationDuration_val, q1, q2]
  refine ⟨⟨d52, by norm_num, by norm_num, hf, ?_⟩, ⟨d53, by norm_num, by norm_num, hdur, ?_⟩⟩
  · rw [hf]
    norm_num
  · rw [hdur]
    norm_num

/-- C5, amended: when every draw of `Math.random()` is a double in `[0, 1)`, the values
`createPetalCircle` derives from the draws, computed in binary64, stay in range: the
rotation `r * 720` lies in `[0, 720)` and 720 is not reached; the font size `r * 15 + 25` of
every new petal lies in `[25, 40]` and the animation duration `r * 1.5 + 1.5` in
`[1.5, 3]`, both ends included. -/
theorem random_values_in_range64 (M : JSMath F64)
    (hM : ∀ n, IsDouble (M.random n).val ∧ 0 ≤ (M.random n).val ∧ (M.random n).val < 1) :
    (∀ r : F64, IsDouble r.val → 0 ≤ r.val → r.val < 1 →
      (0 ≤ (rotation r).val ∧ (rotation r).val < 720) ∧
      (25 ≤ (fontSize r).val ∧ (fontSize r).val ≤ 40) ∧
      (3 / 2 ≤ (animationDuration r).val ∧ (animationDuration r).val ≤ 3)) ∧
    (∀ (x y : F64) (p : Page F64),
      ∀ e ∈ (createPetalCircle M PetalEffect.new x y p).elems.drop p.elems.length,
        ∃ v : F64, e.style.fontSize = some v ∧ 25 ≤ v.val ∧ v.val ≤ 40) ∧
    (∀ (cb : RafCallback F64) (s : Page F64) (e : Element F64),
      s.elems[cb.petal]? = some e →
      ∃ (e' : Element F64) (rot dur : F64),
        (runRafCallback M cb s).elems[cb.petal]? = some e' ∧
        e'.style.r = some rot ∧ 0 ≤ rot.val ∧ rot.val < 720 ∧
        e'.style.animation = some dur ∧ 3 / 2 ≤ dur.val ∧ dur.val ≤ 3) := by
  refine ⟨?_, ?_, ?_⟩
  · intro r hd h0 h1
    exact ⟨rotation_range64 r hd h0 h1, fontSize_range64 r h0 h1,
      animationDuration_range64 r h0 h1⟩
  · intro x y p e he
    rw [createPetalCircle_eq] at he
    simp only [List.drop_left] at he
    obtain ⟨i, -, rfl⟩ := mem_burstPetals he
    obtain ⟨-, h0, h1⟩ := hM (p.randomCalls + 3 * i + 2)
    exact ⟨_, rfl, (fontSize_range64 _ h0 h1).1, (fontSize_range64 _ h0 h1).2⟩
  · intro cb s e he
    obtain ⟨hd, h0, h1⟩ := hM s.randomCalls
    obtain ⟨-, h0', h1'⟩ := hM (s.randomCalls + 1)
    exact ⟨_, _, _, runRafCallback_elem M cb s e he, rfl, (rotation_range64 _ hd h0 h1).1,
      (rotation_range64 _ hd h0 h1).2, rfl, (animationDuration_range64 _ h0' h1').1,
      (animationDuration_range64 _ h0' h1').2⟩

theorem random_values_in_range64_witness :
    (∀ n : ℕ, IsDouble ((fun _ : ℕ => F64.mk (1 / 2)) n).val ∧
      0 ≤ ((fun _ : ℕ => F64.mk (1 / 2)) n).val ∧
      ((fun _ : ℕ => F64.mk (1 / 2)) n).val < 1) ∧
    (0 ≤ (rotation (F64.mk (1 / 2))).val ∧ (rotation (F64.mk (1 / 2))).val < 720) ∧
    (25 ≤ (fontSize (F64.mk (1 / 2))).val ∧ (fontSize (F64.mk (1 / 2))).val ≤ 40) ∧
    (3 / 2 ≤ (animationDuration (F64.mk (1 / 2))).val ∧
      (animationDuration (F64.mk (1 / 2))).val ≤ 3) := by
  have hM : ∀ n : ℕ, IsDouble ((fun _ : ℕ => F64.mk (1 / 2)) n).val ∧
      0 ≤ ((fun _ : ℕ => F64.mk (1 / 2)) n).val ∧
      ((fun _ : ℕ => F64.mk (1 / 2)) n).val < 1 :=
    fun _ => ⟨isDouble_half, by norm_num, by norm_num⟩
  obtain ⟨h1, -, -⟩ := random_values_in_range64
    (JSMath.mk 3.141592653589793 (fun _ => 1) (fun _ => 0) (fun _ => F64.mk (1 / 2))) hM
  exact ⟨hM, h1 (F64.mk (1 / 2)) isDouble_half (by norm_num) (by norm_num)⟩

end RandomRanges

/-! ## The first petal of a burst, in binary64 -/

section FirstMarker

theorem angle_zero64 (M : JSMath F64) : angle M PetalEffect.new 0 = 0 := by
  apply F64.eq_of_val
  unfold angle
  rw [F64.mul_val, F64.mul_val, F64.div_val, F64.natCast_val]
  simp [round64_zero, F64.zero_val]

theorem petalX_zero64 (M : JSMath F64) (hcos : M.cos 0 = 1) (x : F64) :
    (petalX M PetalEffect.new x 0).val = round64 (x.val + 100) := by
  unfold petalX radius
  rw [angle_zero64, hcos, F64.add_val, F64.mul_val, F64.ofNat_val 100 (by norm_num),
    F64.one_val, mul_one, round64_ofNat 100 (by norm_num)]

theorem petalY_zero64 (M : JSMath F64) (hsin : M.sin 0 = 0) (y : F64) (hy : IsDouble y.val) :
    petalY M PetalEffect.new y 0 = y := by
  apply F64.eq_of_val
  unfold petalY radius
  rw [angle_zero64, hsin, F64.add_val, F64.mul_val, F64.zero_val, mul_zero, round64_zero,
    add_zero]
  exact hy

theorem tx_val (cb : RafCallback F64) :
    cb.tx.val = round64 (round64 (cb.petalX.val - cb.x.val) * 2) := by
  unfold RafCallback.tx
  rw [F64.mul_val, F64.sub_val, F64.ofNat_val 2 (by norm_num)]

theorem ty_val (cb : RafCallback F64) :
    cb.ty.val = round64 (round64 (cb.petalY.val - cb.y.val) * 2) := by
  unfold RafCallback.ty
  rw [F64.mul_val, F64.sub_val, F64.ofNat_val 2 (by norm_num)]

theorem tx_of_exact_sum (cb : RafCallback F64) (h : cb.petalX.val = cb.x.val + 100) :
    cb.tx.val = 200 := by
  rw [tx_val, h]
  have h1 : cb.x.val + 100 - cb.x.val = 100 := by ring
  rw [h1, round64_ofNat 100 (by norm_num)]
  have h2 : (100 : ℚ) * 2 = 200 := by norm_num
  rw [h2, round64_ofNat 200 (by norm_num)]

theorem ty_of_same (cb : RafCallback F64) (h : cb.petalY = cb.y) : cb.ty.val = 0 := by
  rw [ty_val, h, sub_self, round64_zero, zero_mul, round64_zero]

theorem isDouble_intCast_add_100 (n : ℤ) (h : |n| ≤ 2 ^ 52) : IsDouble ((n : ℚ) + 100) := by
  unfold IsDouble
  have hb : |n + 100| < 2 ^ 53 := by
    rw [abs_lt]
    rw [abs_le] at h
    constructor <;> omega
  have := round64_intCast (n + 100) hb
  push_cast at this
  exact this

theorem val_100_8 : (100.8 : F64).val = 7093169413108531 / 2 ^ 46 := by
  show round64 (100.8 : ℚ) = 7093169413108531 / 2 ^ 46
  rw [round64_eq_pos 100.8 6 7093169413108531 (by norm_num) (by norm_num) (by norm_num)
    (roundHalfEven_eq _ _ (by norm_num) (by norm_num) (by norm_num) (by norm_num))]
  norm_num

/-- C4, as stated, fails in binary64 for the activation at `(100.8, 100)`.  The number
`100.8` is the double `7093169413108531 / 2⁴⁶`; the ring target of petal 0 is the double
nearest `x + 100`, a tie that rounds up to `7065021915437466 / 2⁴⁵`, and the displacement
`(petalX - x) * 2` handed to the petal is `200 + 2⁻⁴⁵`, not 200. -/
theorem displacement_differs_from_200 :
    (100.8 : F64).val = 7093169413108531 / 2 ^ 46 ∧ IsDouble (100.8 : F64).val ∧
    ∀ M : JSMath F64, M.cos 0 = 1 →
      ∃ cb : RafCallback F64,
        (createPetalCircle M PetalEffect.new 100.8 100 (Page.mk [] [] [] 0)).rafQueue[0]? =
          some cb ∧
        cb.petal = 0 ∧ cb.x = 100.8 ∧
        cb.petalX.val = 7065021915437466 / 2 ^ 45 ∧
        cb.tx.val = 200 + 1 / 2 ^ 45 ∧ cb.tx.val ≠ 200 := by
  have hx := val_100_8
  have e1 : round64 (7093169413108531 / 2 ^ 46 + 100) = 7065021915437466 / 2 ^ 45 := by
    rw [round64_eq_pos (7093169413108531 / 2 ^ 46 + 100) 7 7065021915437466 (by norm_num)
      (by norm_num) (by norm_num)
      (roundHalfEven_eq _ _ (by norm_num) (by norm_num) (by norm_num) (by norm_num))]
    norm_num
  have e2 : round64 (7065021915437466 / 2 ^ 45 - 7093169413108531 / 2 ^ 46) =
      7036874417766401 / 2 ^ 46 := by
    rw [round64_eq_pos (7065021915437466 / 2 ^ 45 - 7093169413108531 / 2 ^ 46) 6
      7036874417766401 (by norm_num) (by norm_num) (by norm_num)
      (roundHalfEven_eq _ _ (by norm_num) (by norm_num) (by norm_num) (by norm_num))]
    norm_num
  have e3 : round64 (7036874417766401 / 2 ^ 46 * 2) = 200 + 1 / 2 ^ 45 := by
    rw [round64_eq_pos (7036874417766401 / 2 ^ 46 * 2) 7 7036874417766401 (by norm_num)
      (by norm_num) (by norm_num)
      (roundHalfEven_eq _ _ (by norm_num) (by norm_num) (by norm_num) (by norm_num))]
    norm_num
  have hd : IsDouble (100.8 : F64).val := by
    unfold IsDouble
    rw [hx, round64_eq_pos (7093169413108531 / 2 ^ 46) 6 7093169413108531 (by norm_num)
      (by norm_num) (by norm_num)
      (roundHalfEven_eq _ _ (by norm_num) (by norm_num) (by norm_num) (by norm_num))]
    norm_num
  refine ⟨hx, hd, ?_⟩
  intro M hcos
  have hq := rafQueue_get_burst M 100.8 100 (Page.mk [] [] [] 0) 0 (by norm_num)
  simp only [List.length_nil, Nat.add_zero] at hq
  have hX : (petalX M PetalEffect.new 100.8 0).val = 7065021915437466 / 2 ^ 45 := by
    rw [petalX_zero64 M hcos, hx, e1]
  have htx : (RafCallback.mk 0 (100.8 : F64) (100 : F64) (petalX M PetalEffect.new 100.8 0)
      (petalY M PetalEffect.new 100 0)).tx.val = 200 + 1 / 2 ^ 45 := by
    rw [tx_val]
    simp only
    rw [hX, hx, e2, e3]
  refine ⟨_, hq, rfl, rfl, hX, htx, ?_⟩
  rw [htx]
  norm_num

/-- C4, amended: in binary64, a burst at doubles `(x, y)` creates 15 petals, each with
`left = x` and `top = y`.  Given `Math.cos(0) = 1` and `Math.sin(0) = 0`, petal 0 has
ring target `(x ⊕ 100, y)`, the first coordinate being the double nearest `x + 100`; its
displacement is `ty = 0` and `tx = ((x ⊕ 100) ⊖ x) ⊗ 2`, which is 200 whenever `x + 100` is
itself a double, in particular for every integer `x` with `|x| ≤ 2⁵²`.  For the activation
at `(100, 100)` the ring target is `(200, 100)` and the displacement `(200, 0)`. -/
theorem first_marker_binary64 (M : JSMath F64) (hcos : M.cos 0 = 1) (hsin : M.sin 0 = 0)
    (x y : F64) (hy : IsDouble y.val) (p : Page F64) :
    (createPetalCircle M PetalEffect.new x y p).elems.length = p.elems.length + 15 ∧
    (∀ e ∈ (createPetalCircle M PetalEffect.new x y p).elems.drop p.elems.length,
      e.style.left = some x ∧ e.style.top = some y) ∧
    ∃ cb : RafCallback F64,
      (createPetalCircle M PetalEffect.new x y p).rafQueue[p.rafQueue.length]? = some cb ∧
      cb.petal = p.elems.length ∧ cb.x = x ∧ cb.y = y ∧
      cb.petalX.val = round64 (x.val + 100) ∧ cb.petalY = y ∧
      cb.tx.val = round64 (round64 (round64 (x.val + 100) - x.val) * 2) ∧
      cb.ty.val = 0 ∧
      (IsDouble (x.val + 100) → cb.petalX.val = x.val + 100 ∧ cb.tx.val = 200) ∧
      (∀ n : ℤ, x.val = n → |n| ≤ 2 ^ 52 → cb.petalX.val = x.val + 100 ∧ cb.tx.val = 200) ∧
      (x.val = 100 → y.val = 100 →
        cb.petalX.val = 200 ∧ cb.petalY.val = 100 ∧ cb.tx.val = 200 ∧ cb.ty.val = 0) ∧
      (∀ (s : Page F64) (e : Element F64), s.elems[cb.petal]? = some e →
        ∃ e', (runRafCallback M cb s).elems[cb.petal]? = some e' ∧
          e'.style.tx = some cb.tx ∧ e'.style.ty = some cb.ty) := by
  have hq := rafQueue_get_burst M x y p 0 (by norm_num)
  rw [Nat.add_zero, Nat.add_zero] at hq
  have hX := petalX_zero64 M hcos x
  have hY := petalY_zero64 M hsin y hy
  have hty : (RafCallback.mk p.elems.length x y (petalX M PetalEffect.new x 0)
      (petalY M PetalEffect.new y 0)).ty.val = 0 := ty_of_same _ hY
  have hexact : IsDouble (x.val + 100) →
      (petalX M PetalEffect.new x 0).val = x.val + 100 ∧
      (RafCallback.mk p.elems.length x y (petalX M PetalEffect.new x 0)
        (petalY M PetalEffect.new y 0)).tx.val = 200 := by
    intro hd
    have h1 : (petalX M PetalEffect.new x 0).val = x.val + 100 := by
      rw [hX]
      exact hd
    exact ⟨h1, tx_of_exact_sum _ h1⟩
  refine ⟨createPetalCircle_length M x y p, burst_origin M x y p, _, hq, rfl, rfl, rfl, hX,
    hY, ?_, hty, hexact, ?_, ?_, ?_⟩
  · rw [tx_val]
    simp only
    rw [hX]
  · intro n hn hb
    apply hexact
    rw [hn]
    exact isDouble_intCast_add_100 n hb
  · intro hx100 hy100
    have hd : IsDouble (x.val + 100) := by
      rw [hx100]
      have := isDouble_intCast_add_100 100 (by norm_num)
      simpa using this
    obtain ⟨h1, h2⟩ := hexact hd
    refine ⟨?_, ?_, h2, hty⟩
    · rw [h1, hx100]
      norm_num
    · simp only
      rw [hY, hy100]
  · intro s e he
    exact ⟨_, runRafCallback_elem M _ s e he, rfl, rfl⟩

theorem first_marker_binary64_witness :
    (fun _ : F64 => (1 : F64)) 0 = 1 ∧ (fun _ : F64 => (0 : F64)) 0 = 0 ∧
    IsDouble (F64.mk 100).val ∧
    ∃ cb : RafCallback F64,
      (createPetalCircle
        (JSMath.mk 3.141592653589793 (fun _ => 1) (fun _ => 0) (fun _ => F64.mk (1 / 2)))
        PetalEffect.new (F64.mk 100) (F64.mk 100) (Page.mk [] [] [] 0)).rafQueue[0]? =
          some cb ∧
      cb.petalX.val = 200 ∧ cb.petalY.val = 100 ∧ cb.tx.val = 200 ∧ cb.ty.val = 0 := by
  have hd : IsDouble (F64.mk 100).val := by
    unfold IsDouble
    exact round64_ofNat 100 (by norm_num)
  obtain ⟨-, -, cb, h1, -, -, -, -, -, -, -, -, -, h2, -⟩ := first_marker_binary64
    (JSMath.mk 3.141592653589793 (fun _ => 1) (fun _ => 0) (fun _ => F64.mk (1 / 2)))
    rfl rfl (F64.mk 100) (F64.mk 100) hd (Page.mk [] [] [] 0)
  exact ⟨rfl, rfl, hd, cb, by simpa using h1, h2 rfl rfl⟩

end FirstMarker

/-! ## The ripple handler -/

section ForestLemmas

variable {α : Type}

theorem count_remove_le (cls : String) (id : Nat) (f : DomForest α) :
    (f.remove id).count cls ≤ f.count cls := by
  induction f with
  | nil => simp [DomForest.remove]
  | node e children next ihc ihn =>
    simp only [DomForest.remove]
    split
    · simp only [DomForest.count]
      omega
    · simp only [DomForest.count]
      omega

theorem querySelector_hasClass (cls : String) (f : DomForest α) (r : RNode α)
    (h : f.querySelector cls = some r) : r.hasClass cls = true := by
  induction f with
  | nil => simp [DomForest.querySelector] at h
  | node e children next ihc ihn =>
    simp only [DomForest.querySelector] at h
    split at h
    · rename_i he
      cases h
      exact he
    · split at h
      · rename_i r' hr'
        cases h
        exact ihc hr'
      · exact ihn h

theorem querySelector_none_iff (cls : String) (f : DomForest α) :
    f.querySelector cls = none ↔ f.count cls = 0 := by
  induction f with
  | nil => simp [DomForest.querySelector, DomForest.count]
  | node e children next ihc ihn =>
    simp only [DomForest.querySelector, DomForest.count]
    cases he : e.hasClass cls with
    | true => simp
    | false =>
      cases hq : children.querySelector cls with
      | none =>
        have h0 := ihc.1 hq
        simp only [h0, Bool.false_eq_true, if_false, Nat.zero_add]
        exact ihn
      | some r =>
        have hne : children.count cls ≠ 0 := fun h0 => by
          rw [ihc.2 h0] at hq
          cases hq
        simp only [Bool.false_eq_true, if_false, Nat.zero_add]
        constructor
        · intro h
          cases h
        · intro h
          omega

theorem count_pos_of_querySelector (cls : String) (f : DomForest α) (r : RNode α)
    (h : f.querySelector cls = some r) : 0 < f.count cls := by
  by_contra hc
  have h0 : f.count cls = 0 := by omega
  rw [(querySelector_none_iff cls f).2 h0] at h
  cases h

theorem count_remove_querySelector (cls : String) (f : DomForest α) (r : RNode α)
    (h : f.querySelector cls = some r) : (f.remove r.id).count cls + 1 ≤ f.count cls := by
  induction f with
  | nil => simp [DomForest.querySelector] at h
  | node e children next ihc ihn =>
    simp only [DomForest.querySelector] at h
    have hn := count_remove_le cls r.id next
    have hc := count_remove_le cls r.id children
    cases he : e.hasClass cls with
    | true =>
      simp only [he, if_true, Option.some.injEq] at h
      subst h
      simp only [DomForest.remove, if_true, DomForest.count, he]
      omega
    | false =>
      simp only [he, Bool.false_eq_true, if_false] at h
      have hsub : (children.remove r.id).count cls + (next.remove r.id).count cls + 1 ≤
          children.count cls + next.count cls := by
        cases hq : children.querySelector cls with
        | none =>
          rw [hq] at h
          have := ihn h
          omega
        | some r' =>
          rw [hq] at h
          cases h
          have := ihc hq
          omega
      simp only [DomForest.remove]
      split
      · simp only [DomForest.count, he, Bool.false_eq_true, if_false]
        omega
      · simp only [DomForest.count, he, Bool.false_eq_true, if_false]
        omega

theorem count_appendChild (cls : String) (e : RNode α) (f : DomForest α) :
    (f.appendChild e).count cls = f.count cls + (if e.hasClass cls then 1 else 0) := by
  induction f with
  | nil => simp [DomForest.appendChild, DomForest.count]
  | node a children next _ ihn =>
    simp only [DomForest.appendChild, DomForest.count, ihn]
    omega

theorem querySelector_appendChild (cls : String) (e : RNode α) (f : DomForest α)
    (h : f.querySelector cls = none) (he : e.hasClass cls = true) :
    (f.appendChild e).querySelector cls = some e := by
  induction f with
  | nil => simp [DomForest.appendChild, DomForest.querySelector, he]
  | node a children next _ ihn =>
    simp only [DomForest.querySelector] at h
    cases ha : a.hasClass cls with
    | true => simp [ha] at h
    | false =>
      simp only [ha, Bool.false_eq_true, if_false] at h
      cases hq : children.querySelector cls with
      | none =>
        rw [hq] at h
        simp only [DomForest.appendChild, DomForest.querySelector, ha, Bool.false_eq_true,
          if_false, hq]
        exact ihn h
      | some r =>
        rw [hq] at h
        cases h

theorem lastChild_appendChild (e : RNode α) (f : DomForest α) :
    (f.appendChild e).lastChild = some e := by
  induction f with
  | nil => simp [DomForest.appendChild, DomForest.lastChild]
  | node a children next _ ihn =>
    cases next with
    | nil => simp [DomForest.appendChild, DomForest.lastChild]
    | node b cb nb =>
      simp only [DomForest.appendChild, DomForest.lastChild] at ihn ⊢
      exact ihn

theorem remove_of_not_mem (id : Nat) (f : DomForest α) (h : id ∉ f.ids) :
    f.remove id = f := by
  induction f with
  | nil => simp [DomForest.remove]
  | node e children next ihc ihn =>
    simp only [DomForest.ids, List.mem_cons, List.mem_append, not_or] at h
    obtain ⟨h1, h2, h3⟩ := h
    simp only [DomForest.remove, Ne.symm h1, if_false, ihc h2, ihn h3]

theorem querySelector_mem_ids (cls : String) (f : DomForest α) (r : RNode α)
    (h : f.querySelector cls = some r) : r.id ∈ f.ids := by
  induction f with
  | nil => simp [DomForest.querySelector] at h
  | node e children next ihc ihn =>
    simp only [DomForest.querySelector] at h
    simp only [DomForest.ids, List.mem_cons, List.mem_append]
    split at h
    · cases h
      exact Or.inl rfl
    · split at h
      · rename_i r' hr'
        cases h
        exact Or.inr (Or.inl (ihc hr'))
      · exact Or.inr (Or.inr (ihn h))

theorem ids_remove_sublist (r : Nat) (f : DomForest α) :
    (f.remove r).ids.Sublist f.ids := by
  induction f with
  | nil => simp [DomForest.remove]
  | node e children next ihc ihn =>
    simp only [DomForest.remove]
    split
    · simp only [DomForest.ids]
      exact (ihn.trans (List.sublist_append_right _ _)).trans (List.sublist_cons_self _ _)
    · simp only [DomForest.ids]
      exact (ihc.append ihn).cons₂ _

theorem mem_ids_remove {r i : Nat} {f : DomForest α} (h : i ∈ (f.remove r).ids) :
    i ∈ f.ids :=
  (ids_remove_sublist r f).subset h

theorem ids_appendChild (x : RNode α) (f : DomForest α) :
    (f.appendChild x).ids = f.ids ++ [x.id] := by
  induction f with
  | nil => simp [DomForest.appendChild, DomForest.ids]
  | node a children next _ ihn =>
    simp only [DomForest.appendChild, DomForest.ids, ihn, List.cons_append, List.append_assoc]

theorem appendChildTo_of_not_mem (parent : Nat) (x : RNode α) (f : DomForest α)
    (h : parent ∉ f.ids) : f.appendChildTo parent x = f := by
  induction f with
  | nil => simp [DomForest.appendChildTo]
  | node e children next ihc ihn =>
    simp only [DomForest.ids, List.mem_cons, List.mem_append, not_or] at h
    obtain ⟨h1, h2, h3⟩ := h
    simp only [DomForest.appendChildTo, Ne.symm h1, if_false, ihc h2, ihn h3]

theorem mem_ids_appendChildTo {parent i : Nat} {x : RNode α} {f : DomForest α}
    (h : i ∈ (f.appendChildTo parent x).ids) : i ∈ f.ids ∨ i = x.id := by
  induction f with
  | nil => simp [DomForest.appendChildTo, DomForest.ids] at h
  | node e children next ihc ihn =>
    simp only [DomForest.appendChildTo] at h
    split at h
    · simp only [DomForest.ids, ids_appendChild, List.mem_cons, List.mem_append,
        List.mem_singleton, List.not_mem_nil, or_false] at h ⊢
      tauto
    · simp only [DomForest.ids, List.mem_cons, List.mem_append] at h ⊢
      rcases h with h | h | h
      · exact Or.inl (Or.inl h)
      · rcases ihc h with h' | h'
        · exact Or.inl (Or.inr (Or.inl h'))
        · exact Or.inr h'
      · rcases ihn h with h' | h'
        · exact Or.inl (Or.inr (Or.inr h'))
        · exact Or.inr h'

theorem nodup_ids_appendChildTo (parent : Nat) (x : RNode α) (f : DomForest α)
    (hn : f.ids.Nodup) (hx : x.id ∉ f.ids) : (f.appendChildTo parent x).ids.Nodup := by
  induction f with
  | nil => simp [DomForest.appendChildTo, DomForest.ids]
  | node e children next ihc ihn =>
    simp only [DomForest.appendChildTo]
    split
    · simp only [DomForest.ids, ids_appendChild] at hn hx ⊢
      have hperm : (e.id :: (children.ids ++ [x.id] ++ next.ids)).Perm
          (x.id :: e.id :: (children.ids ++ next.ids)) := by
        have h1 : (children.ids ++ [x.id] ++ next.ids).Perm
            (x.id :: (children.ids ++ next.ids)) := by
          rw [List.append_assoc, List.singleton_append]
          exact List.perm_middle
        exact (h1.cons e.id).trans (List.Perm.swap _ _ _)
      exact hperm.nodup_iff.2 (List.nodup_cons.2 ⟨hx, hn⟩)
    · simp only [DomForest.ids, List.nodup_cons, List.mem_append, not_or,
        List.nodup_append, List.mem_cons] at hn hx
      obtain ⟨⟨he1, he2⟩, hc, hnx, hdisj⟩ := hn
      obtain ⟨hx0, hx1, hx2⟩ := hx
      simp only [DomForest.ids, List.nodup_cons, List.mem_append, not_or, List.nodup_append]
      refine ⟨⟨?_, ?_⟩, ihc hc hx1, ihn hnx hx2, ?_⟩
      · intro h
        rcases mem_ids_appendChildTo h with h' | h'
        · exact he1 h'
        · exact hx0 h'.symm
      · intro h
        rcases mem_ids_appendChildTo h with h' | h'
        · exact he2 h'
        · exact hx0 h'.symm
      · intro a ha hb
        by_cases hp : parent ∈ next.ids
        · have hpc : parent ∉ children.ids := fun h => hdisj h hp
          rw [appendChildTo_of_not_mem parent x children hpc] at ha
          rcases mem_ids_appendChildTo hb with h' | h'
          · exact hdisj ha h'
          · exact hx1 (h' ▸ ha)
        · rw [appendChildTo_of_not_mem parent x next hp] at hb
          rcases mem_ids_appendChildTo ha with h' | h'
          · exact hdisj h' hb
          · exact hx2 (h' ▸ hb)

theorem childrenOf_eq_none_iff (id : Nat) (f : DomForest α) :
    f.childrenOf id = none ↔ id ∉ f.ids := by
  induction f with
  | nil => simp [DomForest.childrenOf, DomForest.ids]
  | node e children next ihc ihn =>
    simp only [DomForest.childrenOf, DomForest.ids, List.mem_cons, List.mem_append, not_or]
    by_cases he : e.id = id
    · simp [he]
    · simp only [he, if_false]
      cases hc : children.childrenOf id with
      | some below =>
        have : ¬ id ∉ children.ids := fun h => by
          rw [ihc.2 h] at hc
          cases hc
        constructor
        · intro h
          cases h
        · intro h
          exact absurd h.2.1 this
      | none =>
        have h1 := ihc.1 hc
        simp only
        rw [ihn]
        exact ⟨fun h => ⟨fun h' => he h'.symm, h1, h⟩, fun h => h.2.2⟩

theorem ids_childrenOf_subset {id : Nat} {f below : DomForest α}
    (h : f.childrenOf id = some below) : ∀ i ∈ below.ids, i ∈ f.ids := by
  induction f with
  | nil => simp [DomForest.childrenOf] at h
  | node e children next ihc ihn =>
    intro i hi
    simp only [DomForest.childrenOf] at h
    simp only [DomForest.ids, List.mem_cons, List.mem_append]
    split at h
    · cases h
      exact Or.inr (Or.inl hi)
    · split at h
      · rename_i b hb
        cases h
        exact Or.inr (Or.inl (ihc hb i hi))
      · exact Or.inr (Or.inr (ihn h i hi))

theorem childrenOf_remove_of_none (id r : Nat) (f : DomForest α)
    (h : f.childrenOf id = none) : (f.remove r).childrenOf id = none := by
  rw [childrenOf_eq_none_iff] at h ⊢
  exact fun h' => h (mem_ids_remove h')

theorem childrenOf_remove (id r : Nat) (f below : DomForest α) (hn : f.ids.Nodup)
    (h : f.childrenOf id = some below) :
    (f.remove r).childrenOf id = none ∨
      (f.remove r).childrenOf id = some (below.remove r) := by
  induction f with
  | nil => simp [DomForest.childrenOf] at h
  | node e children next ihc ihn =>
    simp only [DomForest.ids, List.nodup_cons, List.mem_append, not_or,
      List.nodup_append] at hn
    obtain ⟨⟨he1, he2⟩, hc, hnx, hdisj⟩ := hn
    simp only [DomForest.childrenOf] at h
    simp only [DomForest.remove]
    by_cases her : e.id = r
    · simp only [her, if_true]
      by_cases hei : e.id = id
      · left
        rw [childrenOf_eq_none_iff]
        intro hm
        exact he2 (hei ▸ mem_ids_remove hm)
      · simp only [hei, if_false] at h
        cases hcc : children.childrenOf id with
        | some b =>
          left
          have hin : id ∈ children.ids := by
            by_contra hnot
            rw [(childrenOf_eq_none_iff id children).2 hnot] at hcc
            cases hcc
          rw [childrenOf_eq_none_iff]
          intro hm
          exact hdisj hin (mem_ids_remove hm)
        | none =>
          rw [hcc] at h
          exact ihn hnx h
    · simp only [her, if_false, DomForest.childrenOf]
      by_cases hei : e.id = id
      · simp only [hei, if_true, Option.some.injEq] at h ⊢
        right
        rw [h]
      · simp only [hei, if_false] at h ⊢
        cases hcc : children.childrenOf id with
        | some b =>
          rw [hcc] at h
          cases h
          have hin : id ∈ children.ids := by
            by_contra hnot
            rw [(childrenOf_eq_none_iff id children).2 hnot] at hcc
            cases hcc
          rcases ihc hc hcc with h1 | h1
          · left
            rw [h1]
            simp only
            rw [childrenOf_eq_none_iff]
            intro hm
            exact hdisj hin (mem_ids_remove hm)
          · right
            rw [h1]
        | none =>
          rw [hcc] at h
          rw [childrenOf_remove_of_none id r children hcc]
          exact ihn hnx h

theorem childrenOf_remove_below (id r : Nat) (f below : DomForest α) (hn : f.ids.Nodup)
    (h : f.childrenOf id = some below) (hr : r ∈ below.ids) :
    (f.remove r).childrenOf id = some (below.remove r) := by
  induction f with
  | nil => simp [DomForest.childrenOf] at h
  | node e children next ihc ihn =>
    simp only [DomForest.ids, List.nodup_cons, List.mem_append, not_or,
      List.nodup_append] at hn
    obtain ⟨⟨he1, he2⟩, hc, hnx, hdisj⟩ := hn
    simp only [DomForest.childrenOf] at h
    have hrf : r ∈ children.ids ∨ r ∈ next.ids := by
      by_cases hei : e.id = id
      · simp only [hei, if_true, Option.some.injEq] at h
        exact Or.inl (h ▸ hr)
      · simp only [hei, if_false] at h
        cases hcc : children.childrenOf id with
        | some b =>
          rw [hcc] at h
          cases h
          exact Or.inl (ids_childrenOf_subset hcc r hr)
        | none =>
          rw [hcc] at h
          exact Or.inr (ids_childrenOf_subset h r hr)
    have her : e.id ≠ r := by
      intro heq
      rcases hrf with h' | h'
      · exact he1 (heq ▸ h')
      · exact he2 (heq ▸ h')
    simp only [DomForest.remove, her, if_false, DomForest.childrenOf]
    by_cases hei : e.id = id
    · simp only [hei, if_true, Option.some.injEq] at h ⊢
      rw [h]
    · simp only [hei, if_false] at h ⊢
      cases hcc : children.childrenOf id with
      | some b =>
        rw [hcc] at h
        cases h
        rw [ihc hc hcc]
      | none =>
        rw [hcc] at h
        rw [childrenOf_remove_of_none id r children hcc]
        exact ihn hnx h

theorem childrenOf_appendChild (id : Nat) (x : RNode α) (f : DomForest α) (hx : x.id ≠ id) :
    (f.appendChild x).childrenOf id = f.childrenOf id := by
  induction f with
  | nil => simp [DomForest.appendChild, DomForest.childrenOf, hx]
  | node a children next _ ihn =>
    simp only [DomForest.appendChild, DomForest.childrenOf, ihn]

theorem childrenOf_appendChildTo_self (id : Nat) (x : RNode α) (f below : DomForest α)
    (h : f.childrenOf id = some below) :
    (f.appendChildTo id x).childrenOf id = some (below.appendChild x) := by
  induction f with
  | nil => simp [DomForest.childrenOf] at h
  | node e children next ihc ihn =>
    simp only [DomForest.childrenOf] at h
    simp only [DomForest.appendChildTo]
    by_cases hei : e.id = id
    · simp only [hei, if_true, Option.some.injEq] at h
      simp only [hei, if_true, DomForest.childrenOf, h]
    · simp only [hei, if_false] at h
      simp only [hei, if_false, DomForest.childrenOf]
      cases hcc : children.childrenOf id with
      | some b =>
        rw [hcc] at h
        cases h
        rw [ihc hcc]
      | none =>
        rw [hcc] at h
        rw [appendChildTo_of_not_mem id x children ((childrenOf_eq_none_iff _ _).1 hcc), hcc]
        exact ihn h

theorem childrenOf_appendChildTo_of_none (id parent : Nat) (x : RNode α) (f : DomForest α)
    (hx : x.id ≠ id) (h : f.childrenOf id = none) :
    (f.appendChildTo parent x).childrenOf id = none := by
  rw [childrenOf_eq_none_iff] at h ⊢
  intro hm
  rcases mem_ids_appendChildTo hm with h' | h'
  · exact h h'
  · exact hx h'.symm

theorem childrenOf_appendChildTo_other (id parent : Nat) (x : RNode α)
    (f below : DomForest α) (hp : parent ≠ id) (hx : x.id ≠ id)
    (h : f.childrenOf id = some below) (hb : parent ∉ below.ids) :
    (f.appendChildTo parent x).childrenOf id = some below := by
  induction f with
  | nil => simp [DomForest.childrenOf] at h
  | node e children next ihc ihn =>
    simp only [DomForest.childrenOf] at h
    simp only [DomForest.appendChildTo]
    by_cases hei : e.id = id
    · simp only [hei, if_true, Option.some.injEq] at h
      have hep : ¬ id = parent := fun h' => hp h'.symm
      simp only [hei, hep, if_false, DomForest.childrenOf, if_true, Option.some.injEq]
      rw [h, appendChildTo_of_not_mem parent x below hb]
    · simp only [hei, if_false] at h
      by_cases hepar : e.id = parent
      · simp only [hepar, if_true, DomForest.childrenOf]
        have : ¬ parent = id := hp
        simp only [this, if_false, childrenOf_appendChild id x children hx]
        exact h
      · simp only [hepar, if_false, DomForest.childrenOf, hei]
        cases hcc : children.childrenOf id with
        | some b =>
          rw [hcc] at h
          cases h
          rw [ihc hcc]
        | none =>
          rw [hcc] at h
          rw [childrenOf_appendChildTo_of_none id parent x children hx hcc]
          exact ihn h

end ForestLemmas

section RippleProofs

variable {α : Type} [Sub α] [Div α] [NatCast α] [Max α]

theorem newRipple_hasClass (rect : Rect α) (e : MouseEvent α) (id : Nat) :
    (newRipple rect e id).hasClass "ripple" = true := by
  simp [newRipple, RNode.hasClass]

theorem ids_removeExistingRipple_sublist (below body : DomForest α) :
    (removeExistingRipple below body).ids.Sublist body.ids := by
  unfold removeExistingRipple
  cases below.querySelector "ripple" with
  | none => exact List.Sublist.refl _
  | some r => exact ids_remove_sublist _ _

theorem childrenOf_removeExistingRipple_of_none (this : Nat) (below body : DomForest α)
    (h : body.childrenOf this = none) :
    (removeExistingRipple below body).childrenOf this = none := by
  rw [childrenOf_eq_none_iff] at h ⊢
  exact fun h' => h ((ids_removeExistingRipple_sublist below body).subset h')

theorem childrenOf_removeExistingRipple (this : Nat) (below body s : DomForest α)
    (hn : body.ids.Nodup) (h : body.childrenOf this = some s) :
    (removeExistingRipple below body).childrenOf this = none ∨
      ∃ s₁, (removeExistingRipple below body).childrenOf this = some s₁ ∧
        s₁.count "ripple" ≤ s.count "ripple" ∧ ∀ i ∈ s₁.ids, i ∈ s.ids := by
  unfold removeExistingRipple
  cases below.querySelector "ripple" with
  | none => exact Or.inr ⟨s, h, le_rfl, fun _ hi => hi⟩
  | some r =>
    rcases childrenOf_remove this r.id body s hn h with h1 | h1
    · exact Or.inl h1
    · exact Or.inr ⟨_, h1, count_remove_le _ _ _, fun _ hi => mem_ids_remove hi⟩

theorem childrenOf_removeExistingRipple_self (this : Nat) (body s : DomForest α)
    (hn : body.ids.Nodup) (h : body.childrenOf this = some s)
    (hc : s.count "ripple" ≤ 1) :
    ∃ s₀, (removeExistingRipple s body).childrenOf this = some s₀ ∧
      s₀.count "ripple" = 0 ∧ ∀ i ∈ s₀.ids, i ∈ s.ids := by
  unfold removeExistingRipple
  cases hq : s.querySelector "ripple" with
  | none => exact ⟨s, h, (querySelector_none_iff _ _).1 hq, fun _ hi => hi⟩
  | some r =>
    refine ⟨_, childrenOf_remove_below this r.id body s hn h
      (querySelector_mem_ids _ _ _ hq), ?_, fun _ hi => mem_ids_remove hi⟩
    have := count_remove_querySelector _ _ _ hq
    omega

theorem rippleHandler_clickable (rect : Rect α) (e : MouseEvent α) (this' : Nat)
    (d : Document α) : (rippleHandler rect e this' d).clickable = d.clickable := by
  unfold rippleHandler
  cases d.body.childrenOf this' <;> rfl

theorem rippleHandler_wellFormed (rect : Rect α) (e : MouseEvent α) (this' : Nat)
    (d : Document α) (h : d.WellFormed) : (rippleHandler rect e this' d).WellFormed := by
  unfold rippleHandler
  cases hc : d.body.childrenOf this' with
  | none => exact h
  | some below =>
    obtain ⟨h1, h2, h3⟩ := h
    have hsub := ids_removeExistingRipple_sublist below d.body
    have hfresh : (newRipple rect e d.nextId).id ∉ (removeExistingRipple below d.body).ids := by
      intro hm
      have := h2 _ (hsub.subset hm)
      simp [newRipple] at this
    refine ⟨nodup_ids_appendChildTo _ _ _ (hsub.nodup h1) hfresh, ?_, ?_⟩
    · intro i hi
      rcases mem_ids_appendChildTo hi with h' | h'
      · exact Nat.lt_succ_of_lt (h2 i (hsub.subset h'))
      · rw [h']
        simp [newRipple]
    · intro i hi
      exact Nat.lt_succ_of_lt (h3 i hi)

theorem rippleHandler_nextId_le (rect : Rect α) (e : MouseEvent α) (this' : Nat)
    (d : Document α) : d.nextId ≤ (rippleHandler rect e this' d).nextId := by
  unfold rippleHandler
  cases d.body.childrenOf this' with
  | none => exact le_rfl
  | some below => exact Nat.le_succ _

theorem rippleHandler_self (rect : Rect α) (e : MouseEvent α) (this : Nat)
    (d : Document α) (s : DomForest α) (hinv : RippleInvariant this d)
    (hs : d.body.childrenOf this = some s) :
    ∃ s₀, (rippleHandler rect e this d).body.childrenOf this =
        some (s₀.appendChild (newRipple rect e d.nextId)) ∧
      s₀.count "ripple" = 0 ∧ (∀ i ∈ s₀.ids, i ∈ s.ids) ∧
      (removeExistingRipple s d.body).childrenOf this = some s₀ := by
  obtain ⟨⟨hnd, -, -⟩, -, -, hcount⟩ := hinv
  have hc : s.count "ripple" ≤ 1 := by
    simpa [rippleCount, hs] using hcount
  obtain ⟨s₀, h1, h2, h3⟩ := childrenOf_removeExistingRipple_self this d.body s hnd hs hc
  refine ⟨s₀, ?_, h2, h3, h1⟩
  simp only [rippleHandler, hs]
  exact childrenOf_appendChildTo_self _ _ _ _ h1

theorem rippleHandler_invariant (rect : Rect α) (e : MouseEvent α) (this this' : Nat)
    (d : Document α) (hinv : RippleInvariant this d) (hcl : this' ∈ d.clickable) :
    RippleInvariant this (rippleHandler rect e this' d) := by
  have hwf' := rippleHandler_wellFormed rect e this' d hinv.1
  have hlt' : this < (rippleHandler rect e this' d).nextId :=
    lt_of_lt_of_le hinv.2.1 (rippleHandler_nextId_le rect e this' d)
  obtain ⟨hwf, hlt, hno, hcount⟩ := hinv
  have hxid : (newRipple rect e d.nextId).id ≠ this := by
    simp only [newRipple]
    omega
  have hfresh : d.nextId ∉ d.clickable := fun h => Nat.lt_irrefl _ (hwf.2.2 _ h)
  refine ⟨hwf', hlt', ?_⟩
  cases hc' : d.body.childrenOf this' with
  | none =>
    have hd : rippleHandler rect e this' d = d := by
      simp only [rippleHandler, hc']
    rw [hd]
    exact ⟨hno, hcount⟩
  | some below =>
    have hbody : (rippleHandler rect e this' d).body =
        (removeExistingRipple below d.body).appendChildTo this'
          (newRipple rect e d.nextId) := by
      simp only [rippleHandler, hc']
    have hclk := rippleHandler_clickable rect e this' d
    cases hs : d.body.childrenOf this with
    | none =>
      have hnone : (rippleHandler rect e this' d).body.childrenOf this = none := by
        rw [hbody]
        exact childrenOf_appendChildTo_of_none _ _ _ _ hxid
          (childrenOf_removeExistingRipple_of_none _ _ _ hs)
      constructor
      · intro b hb
        rw [hnone] at hb
        cases hb
      · simp only [rippleCount, hnone]
        exact Nat.zero_le _
    | some s =>
      have hsno := hno s hs
      have hsc : s.count "ripple" ≤ 1 := by
        simpa [rippleCount, hs] using hcount
      by_cases heq : this' = this
      · subst heq
        rw [hs] at hc'
        cases hc'
        obtain ⟨s₀, h1, h2, h3⟩ := childrenOf_removeExistingRipple_self this' d.body below
          hwf.1 hs hsc
        have hnew : (rippleHandler rect e this' d).body.childrenOf this' =
            some (s₀.appendChild (newRipple rect e d.nextId)) := by
          rw [hbody]
          exact childrenOf_appendChildTo_self _ _ _ _ h1
        constructor
        · intro b hb
          rw [hnew] at hb
          cases hb
          intro i hi
          rw [ids_appendChild] at hi
          rw [hclk]
          rcases List.mem_append.1 hi with h' | h'
          · exact hsno i (h3 i h')
          · simp only [newRipple, List.mem_singleton] at h'
            rw [h']
            exact hfresh
        · simp only [rippleCount, hnew, count_appendChild, newRipple_hasClass, if_true, h2]
          exact le_rfl
      · have hnotin : this' ∉ s.ids := fun h => hsno _ h hcl
        rcases childrenOf_removeExistingRipple this below d.body s hwf.1 hs with h1 | h1
        · have hnone : (rippleHandler rect e this' d).body.childrenOf this = none := by
            rw [hbody]
            exact childrenOf_appendChildTo_of_none _ _ _ _ hxid h1
          constructor
          · intro b hb
            rw [hnone] at hb
            cases hb
          · simp only [rippleCount, hnone]
            exact Nat.zero_le _
        · obtain ⟨s₁, h1, h2, h3⟩ := h1
          have hsame : (rippleHandler rect e this' d).body.childrenOf this = some s₁ := by
            rw [hbody]
            exact childrenOf_appendChildTo_other _ _ _ _ _ heq hxid h1
              (fun h => hnotin (h3 _ h))
          constructor
          · intro b hb
            rw [hsame] at hb
            cases hb
            intro i hi
            rw [hclk]
            exact hsno i (h3 i hi)
          · simp only [rippleCount, hsame]
            omega

theorem eventPath_mem_ids {β : Type} (target i : Nat) (f : DomForest β)
    (h : i ∈ f.eventPath target) : i ∈ f.ids := by
  induction f with
  | nil => simp [DomForest.eventPath] at h
  | node e children next ihc ihn =>
    simp only [DomForest.eventPath] at h
    simp only [DomForest.ids, List.mem_cons, List.mem_append]
    split at h
    · simp only [List.mem_singleton] at h
      exact Or.inl h
    · split at h
      · exact Or.inr (Or.inr (ihn h))
      · rename_i j path hp
        rw [hp] at ihc
        rcases List.mem_append.1 h with h' | h'
        · exact Or.inr (Or.inl (ihc h'))
        · simp only [List.mem_singleton] at h'
          exact Or.inl h'

theorem foldl_rippleHandler_invariant (rects : Nat → Rect α) (e : MouseEvent α)
    (this : Nat) (l : List Nat) (d : Document α) (hinv : RippleInvariant this d)
    (hl : ∀ i ∈ l, i ∈ d.clickable) :
    RippleInvariant this (l.foldl (fun d i => rippleHandler (rects i) e i d) d) := by
  induction l generalizing d with
  | nil => exact hinv
  | cons i l ih =>
    simp only [List.foldl_cons]
    apply ih
    · exact rippleHandler_invariant _ _ _ _ _ hinv (hl i (List.mem_cons_self _ _))
    · intro j hj
      rw [rippleHandler_clickable]
      exact hl j (List.mem_cons_of_mem _ hj)

theorem dispatchClick_invariant (rects : Nat → Rect α) (e : MouseEvent α)
    (this target : Nat) (d : Document α) (hinv : RippleInvariant this d) :
    RippleInvariant this (dispatchClick rects e target d) := by
  unfold dispatchClick
  apply foldl_rippleHandler_invariant _ _ _ _ _ hinv
  intro i hi
  simp only [handlerChain, List.mem_filter, decide_eq_true_eq] at hi
  exact hi.2

theorem rippleTimeout_invariant (this k : Nat) (d : Document α)
    (hinv : RippleInvariant this d) : RippleInvariant this (rippleTimeout k d) := by
  unfold rippleTimeout
  cases ht : d.timers[k]? with
  | none => exact hinv
  | some t =>
    obtain ⟨⟨h1, h2, h3⟩, hlt, hno, hcount⟩ := hinv
    have hsub := ids_remove_sublist t.ripple d.body
    refine ⟨⟨hsub.nodup h1, fun i hi => h2 i (hsub.subset hi), h3⟩, hlt, ?_⟩
    cases hs : d.body.childrenOf this with
    | none =>
      have hnone := childrenOf_remove_of_none this t.ripple d.body hs
      constructor
      · intro b hb
        simp only at hb
        rw [hnone] at hb
        cases hb
      · simp only [rippleCount, hnone]
        exact Nat.zero_le _
    | some s =>
      have hsc : s.count "ripple" ≤ 1 := by
        simpa [rippleCount, hs] using hcount
      rcases childrenOf_remove this t.ripple d.body s h1 hs with h' | h'
      · constructor
        · intro b hb
          simp only at hb
          rw [h'] at hb
          cases hb
        · simp only [rippleCount, h']
          exact Nat.zero_le _
      · constructor
        · intro b hb
          simp only at hb
          rw [h'] at hb
          cases hb
          intro i hi
          exact hno s hs i (mem_ids_remove hi)
        · simp only [rippleCount, h']
          exact le_trans (count_remove_le _ _ _) hsc

theorem rippleStep_invariant (this : Nat) (d : Document α) (ev : RippleEvent α)
    (hinv : RippleInvariant this d) : RippleInvariant this (rippleStep d ev) := by
  cases ev with
  | click rects e target => exact dispatchClick_invariant rects e this target d hinv
  | timeout k => exact rippleTimeout_invariant this k d hinv

theorem rippleRun_invariant (this : Nat) (evs : List (RippleEvent α)) (d : Document α)
    (hinv : RippleInvariant this d) : RippleInvariant this (rippleRun d evs) := by
  induction evs generalizing d with
  | nil => exact hinv
  | cons ev evs ih => exact ih (rippleStep d ev) (rippleStep_invariant this d ev hinv)

theorem rippleHandler_self_count (rect : Rect α) (e : MouseEvent α) (this : Nat)
    (d : Document α) (s : DomForest α) (hinv : RippleInvariant this d)
    (hs : d.body.childrenOf this = some s) :
    rippleCount this (rippleHandler rect e this d) = 1 := by
  obtain ⟨s₀, h1, h2, -, -⟩ := rippleHandler_self rect e this d s hinv hs
  simp only [rippleCount, h1, count_appendChild, newRipple_hasClass, if_true, h2]

theorem dispatchClick_only_self (rects : Nat → Rect α) (e : MouseEvent α)
    (this target : Nat) (d : Document α) (hinv : RippleInvariant this d)
    (hchain : handlerChain target d = [this]) :
    rippleCount this (dispatchClick rects e target d) = 1 := by
  have hmem : this ∈ d.body.ids := by
    have h1 : this ∈ handlerChain target d := by
      rw [hchain]
      exact List.mem_singleton_self _
    simp only [handlerChain, List.mem_filter] at h1
    exact eventPath_mem_ids _ _ _ h1.1
  cases hs : d.body.childrenOf this with
  | none => exact absurd hmem ((childrenOf_eq_none_iff _ _).1 hs)
  | some s =>
    simp only [dispatchClick, hchain, List.foldl_cons, List.foldl_nil]
    exact rippleHandler_self_count _ e this d s hinv hs

end RippleProofs

/-! ## The ripple claim -/

section RippleClaim

theorem rippleSize_cases (rect : Rect F64) :
    (rippleSize rect = rect.width ∨ rippleSize rect = rect.height) ∧
    rect.width.val ≤ (rippleSize rect).val ∧ rect.height.val ≤ (rippleSize rect).val := by
  unfold rippleSize
  show ((if rect.width.val ≤ rect.height.val then rect.height else rect.width) = rect.width ∨
      (if rect.width.val ≤ rect.height.val then rect.height else rect.width) = rect.height) ∧
    rect.width.val ≤ (if rect.width.val ≤ rect.height.val then rect.height else rect.width).val ∧
    rect.height.val ≤ (if rect.width.val ≤ rect.height.val then rect.height else rect.width).val
  split_ifs with h
  · exact ⟨Or.inr rfl, h, le_rfl⟩
  · exact ⟨Or.inl rfl, le_rfl, (not_le.1 h).le⟩

theorem ripple_offset_val (c o size : F64) :
    (c - o - size / 2).val = round64 (round64 (c.val - o.val) - round64 (size.val / 2)) := by
  rw [F64.sub_val, F64.sub_val, F64.div_val, F64.ofNat_val 2 (by norm_num)]

theorem ripple_offset_exact (c o size : F64) (h1 : IsDouble (c.val - o.val))
    (h2 : IsDouble (size.val / 2)) (h3 : IsDouble (c.val - o.val - size.val / 2)) :
    (c - o - size / 2).val + size.val / 2 = c.val - o.val := by
  rw [ripple_offset_val, h1, h2, h3]
  ring

theorem nestedButtons_invariant : RippleInvariant 1 nestedButtons := by
  refine ⟨⟨?_, ?_, ?_⟩, ?_, ?_, ?_⟩
  · simp [nestedButtons, DomForest.ids]
  · intro i hi
    simp [nestedButtons, DomForest.ids] at hi
    rcases hi with h | h <;> simp [h, nestedButtons]
  · intro i hi
    simp [nestedButtons] at hi
    rcases hi with h | h <;> simp [h, nestedButtons]
  · simp [nestedButtons]
  · intro below hb i hi
    simp [nestedButtons, DomForest.childrenOf] at hb
    rw [← hb] at hi
    simp [DomForest.ids] at hi
  · simp [rippleCount, nestedButtons, DomForest.childrenOf, DomForest.count]

/-- C10, as stated, fails in two ways.  Bubbling: in `<a><span class="btn"></span></a>`
the `span` has no clickable descendant and no ripple; a click on it runs its handler, after
which it holds one ripple, and then the handler of the `a`, whose `querySelector('.ripple')`
finds that ripple and removes it: after the click the `span` holds no ripple.  Rounding:
for `clientX = 48.17`, `rect.left = 0.29` and `width = 325.97` the binary64 value of
`left` misses the centring equation by `113 / 2⁵⁴`. -/
theorem ripple_claim_fails :
    (RippleInvariant 1 nestedButtons ∧ handlerChain 1 nestedButtons = [1, 0] ∧
      rippleCount 1 (rippleHandler (Rect.mk 0 0 100 40) (MouseEvent.mk 50 20) 1
        nestedButtons) = 1 ∧
      rippleCount 1 (dispatchClick (fun _ => Rect.mk 0 0 100 40) (MouseEvent.mk 50 20) 1
        nestedButtons) = 0 ∧
      rippleCount 0 (dispatchClick (fun _ => Rect.mk 0 0 100 40) (MouseEvent.mk 50 20) 1
        nestedButtons) = 1) ∧
    ∃ left size : F64,
      (newRipple (Rect.mk 0.29 0 325.97 40) (MouseEvent.mk 48.17 20) 0).left = some left ∧
      (newRipple (Rect.mk 0.29 0 325.97 40) (MouseEvent.mk 48.17 20) 0).width = some size ∧
      size = 325.97 ∧
      left.val + size.val / 2 - ((48.17 : F64).val - (0.29 : F64).val) = -113 / 2 ^ 54 ∧
      left.val + size.val / 2 ≠ (48.17 : F64).val - (0.29 : F64).val := by
  have vc : (48.17 : F64).val = 6779324814076150 / 2 ^ 47 := by
    show round64 (48.17 : ℚ) = 6779324814076150 / 2 ^ 47
    rw [round64_eq_pos 48.17 5 6779324814076150 (by norm_num) (by norm_num) (by norm_num)
      (roundHalfEven_eq _ _ (by norm_num) (by norm_num) (by norm_num) (by norm_num))]
    norm_num
  have vo : (0.29 : F64).val = 5224175567749775 / 2 ^ 54 := by
    show round64 (0.29 : ℚ) = 5224175567749775 / 2 ^ 54
    rw [round64_eq_pos 0.29 (-2) 5224175567749775 (by norm_num) (by norm_num) (by norm_num)
      (roundHalfEven_eq _ _ (by norm_num) (by norm_num) (by norm_num) (by norm_num))]
    norm_num
  have vs : (325.97 : F64).val = 5734524884898284 / 2 ^ 44 := by
    show round64 (325.97 : ℚ) = 5734524884898284 / 2 ^ 44
    rw [round64_eq_pos 325.97 8 5734524884898284 (by norm_num) (by norm_num) (by norm_num)
      (roundHalfEven_eq _ _ (by norm_num) (by norm_num) (by norm_num) (by norm_num))]
    norm_num
  have v40 : (40 : F64).val = 40 := F64.ofNat_val 40 (by norm_num)
  have e1 : round64 (6779324814076150 / 2 ^ 47 - 5224175567749775 / 2 ^ 54) =
      6738510942453105 / 2 ^ 47 := by
    rw [round64_eq_pos (6779324814076150 / 2 ^ 47 - 5224175567749775 / 2 ^ 54) 5
      6738510942453105 (by norm_num) (by norm_num) (by norm_num)
      (roundHalfEven_eq _ _ (by norm_num) (by norm_num) (by norm_num) (by norm_num))]
    norm_num
  have e2 : round64 (5734524884898284 / 2 ^ 44 / 2) = 5734524884898284 / 2 ^ 45 := by
    rw [round64_eq_pos (5734524884898284 / 2 ^ 44 / 2) 7 5734524884898284 (by norm_num)
      (by norm_num) (by norm_num)
      (roundHalfEven_eq _ _ (by norm_num) (by norm_num) (by norm_num) (by norm_num))]
    norm_num
  have e3 : round64 (6738510942453105 / 2 ^ 47 - 5734524884898284 / 2 ^ 45) =
      -8099794298570016 / 2 ^ 46 := by
    rw [round64_eq_neg (6738510942453105 / 2 ^ 47 - 5734524884898284 / 2 ^ 45) 6
      (-8099794298570016) (by norm_num) (by norm_num) (by norm_num)
      (roundHalfEven_eq _ _ (by norm_num) (by norm_num) (by norm_num) (by norm_num))]
    norm_num
  have hsize : rippleSize (Rect.mk (0.29 : F64) 0 325.97 40) = 325.97 := by
    unfold rippleSize
    show (if (325.97 : F64).val ≤ (40 : F64).val then (40 : F64) else 325.97) = 325.97
    rw [vs, v40, if_neg (by norm_num)]
  have hleft : ((48.17 : F64) - 0.29 - (325.97 : F64) / 2).val = -8099794298570016 / 2 ^ 46 := by
    rw [ripple_offset_val, vc, vo, vs, e1, e2, e3]
  have hdiff : ((48.17 : F64) - 0.29 - (325.97 : F64) / 2).val + (325.97 : F64).val / 2 -
      ((48.17 : F64).val - (0.29 : F64).val) = -113 / 2 ^ 54 := by
    rw [hleft, vc, vo, vs]
    norm_num
  refine ⟨⟨nestedButtons_invariant, ?_, ?_, ?_, ?_⟩, _, _, ?_, ?_, rfl, hdiff, ?_⟩
  · decide
  · simp [nestedButtons, rippleHandler, DomForest.childrenOf, removeExistingRipple,
      DomForest.querySelector, DomForest.appendChildTo, DomForest.appendChild, newRipple,
      RNode.hasClass, DomForest.remove, rippleCount, DomForest.count]
  · simp [dispatchClick, handlerChain, nestedButtons, DomForest.eventPath, rippleHandler,
      DomForest.childrenOf, removeExistingRipple, DomForest.querySelector,
      DomForest.appendChildTo, DomForest.appendChild, newRipple, RNode.hasClass,
      DomForest.remove, rippleCount, DomForest.count]
  · simp [dispatchClick, handlerChain, nestedButtons, DomForest.eventPath, rippleHandler,
      DomForest.childrenOf, removeExistingRipple, DomForest.querySelector,
      DomForest.appendChildTo, DomForest.appendChild, newRipple, RNode.hasClass,
      DomForest.remove, rippleCount, DomForest.count]
  · simp only [newRipple, hsize]
  · simp only [newRipple, hsize]
  · intro h
    rw [h, sub_self] at hdiff
    norm_num at hdiff

/-- C10, amended.  Let `this` be an element of a well-formed document none of whose
descendants has the click handler and which holds at most one `.ripple` descendant.  After
any sequence of clicks anywhere in the document, each dispatched to the target's handler and
then to the handlers of its clickable ancestors, and of timer firings, in any interleaving,
`this` still holds at most one ripple.  When the handler of `this` runs, lines 85-88 leave
`this` without a ripple and the new ripple is then appended, so that right after its own
handler `this` holds exactly one ripple, the new one, which is its last child and what
`querySelector('.ripple')` finds, with a removal timer of 600 ms; and a click whose only
handler is that of `this` leaves it with exactly one ripple.  A timer firing for a ripple
that is no longer in the document changes nothing.  The new ripple is a square of side
`max(width, height)`; its `left` and `top` are `clientX - rect.left - size / 2` and
`clientY - rect.top - size / 2` evaluated in binary64, which put its centre on the click
point when the two subtractions and the halving are exact, and always do in exact
arithmetic. -/
theorem ripple_at_most_one_with_bubbling {α : Type} [Sub α] [Div α] [NatCast α] [Max α]
    (d : Document α) (this : Nat) (hinv : RippleInvariant this d)
    (evs : List (RippleEvent α)) :
    RippleInvariant this (rippleRun d evs) ∧
    rippleCount this (rippleRun d evs) ≤ 1 ∧
    (∀ (rect : Rect α) (e : MouseEvent α) (below : DomForest α),
      (rippleRun d evs).body.childrenOf this = some below →
      ∃ below₀ : DomForest α,
        (removeExistingRipple below (rippleRun d evs).body).childrenOf this = some below₀ ∧
        below₀.count "ripple" = 0 ∧
        (rippleHandler rect e this (rippleRun d evs)).body.childrenOf this =
          some (below₀.appendChild (newRipple rect e (rippleRun d evs).nextId)) ∧
        rippleCount this (rippleHandler rect e this (rippleRun d evs)) = 1 ∧
        (below₀.appendChild (newRipple rect e (rippleRun d evs).nextId)).querySelector
          "ripple" = some (newRipple rect e (rippleRun d evs).nextId) ∧
        (below₀.appendChild (newRipple rect e (rippleRun d evs).nextId)).lastChild =
          some (newRipple rect e (rippleRun d evs).nextId) ∧
        (rippleHandler rect e this (rippleRun d evs)).timers =
          (rippleRun d evs).timers ++
            [{ delay := 600, ripple := (rippleRun d evs).nextId }]) ∧
    (∀ (rects : Nat → Rect α) (e : MouseEvent α) (target : Nat),
      handlerChain target (rippleRun d evs) = [this] →
      rippleCount this (dispatchClick rects e target (rippleRun d evs)) = 1) ∧
    (∀ (k : Nat) (t : RippleTimer), (rippleRun d evs).timers[k]? = some t →
      t.ripple ∉ (rippleRun d evs).body.ids →
      (rippleTimeout k (rippleRun d evs)).body = (rippleRun d evs).body) ∧
    (∀ (rect : Rect F64) (e : MouseEvent F64) (id : Nat),
      (newRipple rect e id).width = some (rippleSize rect) ∧
      (newRipple rect e id).height = some (rippleSize rect) ∧
      (rippleSize rect = rect.width ∨ rippleSize rect = rect.height) ∧
      rect.width.val ≤ (rippleSize rect).val ∧ rect.height.val ≤ (rippleSize rect).val ∧
      ∃ left top : F64,
        (newRipple rect e id).left = some left ∧ (newRipple rect e id).top = some top ∧
        left.val = round64 (round64 (e.clientX.val - rect.left.val) -
          round64 ((rippleSize rect).val / 2)) ∧
        top.val = round64 (round64 (e.clientY.val - rect.top.val) -
          round64 ((rippleSize rect).val / 2)) ∧
        (IsDouble (e.clientX.val - rect.left.val) → IsDouble ((rippleSize rect).val / 2) →
          IsDouble (e.clientX.val - rect.left.val - (rippleSize rect).val / 2) →
          left.val + (rippleSize rect).val / 2 = e.clientX.val - rect.left.val) ∧
        (IsDouble (e.clientY.val - rect.top.val) → IsDouble ((rippleSize rect).val / 2) →
          IsDouble (e.clientY.val - rect.top.val - (rippleSize rect).val / 2) →
          top.val + (rippleSize rect).val / 2 = e.clientY.val - rect.top.val)) ∧
    (∀ (rect : Rect ℚ) (e : MouseEvent ℚ) (id : Nat),
      ∃ size left top : ℚ,
        (newRipple rect e id).width = some size ∧ (newRipple rect e id).height = some size ∧
        (newRipple rect e id).left = some left ∧ (newRipple rect e id).top = some top ∧
        size = max rect.width rect.height ∧
        left + size / 2 = e.clientX - rect.left ∧
        top + size / 2 = e.clientY - rect.top) := by
  have hrun := rippleRun_invariant this evs d hinv
  generalize rippleRun d evs = d' at hrun ⊢
  refine ⟨hrun, hrun.2.2.2, ?_, ?_, ?_, ?_, ?_⟩
  · intro rect e below hb
    obtain ⟨s₀, h1, h2, -, h4⟩ := rippleHandler_self rect e this d' below hrun hb
    refine ⟨s₀, h4, h2, h1, rippleHandler_self_count rect e this d' below hrun hb,
      querySelector_appendChild _ _ _ ((querySelector_none_iff _ _).2 h2)
        (newRipple_hasClass _ _ _),
      lastChild_appendChild _ _, ?_⟩
    simp only [rippleHandler, hb]
  · intro rects e target hchain
    exact dispatchClick_only_self rects e this target d' hrun hchain
  · intro k t ht hnot
    simp only [rippleTimeout, ht]
    exact remove_of_not_mem _ _ hnot
  · intro rect e id
    obtain ⟨h1, h2, h3⟩ := rippleSize_cases rect
    refine ⟨rfl, rfl, h1, h2, h3, _, _, rfl, rfl, ripple_offset_val _ _ _,
      ripple_offset_val _ _ _, ripple_offset_exact _ _ _, ripple_offset_exact _ _ _⟩
  · intro rect e id
    refine ⟨rippleSize rect, e.clientX - rect.left - rippleSize rect / 2,
      e.clientY - rect.top - rippleSize rect / 2, rfl, rfl, rfl, rfl, rfl, ?_, ?_⟩
    · ring
    · ring

theorem ripple_at_most_one_with_bubbling_witness :
    RippleInvariant 1 nestedButtons ∧
    rippleCount 1 (rippleRun nestedButtons
      [RippleEvent.click (fun _ => Rect.mk 0 0 100 40) (MouseEvent.mk 50 20) 1,
       RippleEvent.timeout 0,
       RippleEvent.click (fun _ => Rect.mk 0 0 100 40) (MouseEvent.mk 60 25) 0]) ≤ 1 := by
  exact ⟨nestedButtons_invariant,
    (ripple_at_most_one_with_bubbling nestedButtons 1 nestedButtons_invariant _).2.1⟩

end RippleClaim

end AnimeEffects
